import Mathlib

/-!
# Verification of the costume-design tube-geometry generator

This file gives a shallow embedding, over the real numbers, of the core of the
`costume-design` repository: the `TubeBaseGeometry` mesh generator
(`generateSegment`, `generateIndices`, `generateUVs`), the 2D/3D control-point
classes (`ControlPoint2`, `ControlPoint3`) with their redundant
vector/polar/angle representations and synchronisation logic, the `Curve2`
control-point list with its derived cubic-Bezier segment list, and the
`Tube` JSON serialisation.

Modelling conventions:

* JavaScript numbers are modelled as real numbers (`ℝ`).  Where the question
  under study is the propagation of non-finite values (`NaN`/`Infinity`),
  numbers are modelled as `Option ℝ` with `none` standing for a non-finite
  value; division by zero produces `none`, and every other primitive
  operation propagates `none`.
* External library functions (the `three.js` curve sampling functions
  `getPointAt`/`getSpacedPoints`, the Frenet-frame builder
  `computeFrenetFrames`, `getLength`, and the JavaScript `Math` builtins)
  are not code of this repository; they enter the model either as explicit
  parameters of the generator environment (`TubeEnv`), or — for small pure
  helpers whose semantics is fixed (`Math.atan2`, `Math.acos`,
  `Vector2.rotateAround`, `Spherical.setFromVector3`,
  `Vector3.setFromSpherical`, `normalize`) — as direct definitions of those
  published semantics.
* JavaScript index arguments can be non-integral, so index parameters of the
  curve-editing operations are modelled as `ℚ` together with the
  `Number.isInteger` test (`q.den = 1`).
* In-place mutation of objects is modelled by explicit state passing: each
  operation returns the updated record.
-/

noncomputable section

/-! ## Basic 2D/3D vectors (THREE.Vector2 / THREE.Vector3, value part) -/

@[ext]
structure V2 where
  x : ℝ
  y : ℝ

@[ext]
structure V3 where
  x : ℝ
  y : ℝ
  z : ℝ

instance : Add V2 := ⟨fun a b => ⟨a.x + b.x, a.y + b.y⟩⟩

instance : Sub V2 := ⟨fun a b => ⟨a.x - b.x, a.y - b.y⟩⟩

instance : Neg V2 := ⟨fun a => ⟨-a.x, -a.y⟩⟩

instance : Add V3 := ⟨fun a b => ⟨a.x + b.x, a.y + b.y, a.z + b.z⟩⟩

instance : Sub V3 := ⟨fun a b => ⟨a.x - b.x, a.y - b.y, a.z - b.z⟩⟩

instance : Neg V3 := ⟨fun a => ⟨-a.x, -a.y, -a.z⟩⟩

/-- Vector2.divideScalar, used by the curve editing code as `.divideScalar(2)`. -/
def V2.divScalar (v : V2) (s : ℝ) : V2 := ⟨v.x / s, v.y / s⟩

/-! ## JavaScript / three.js math builtins used by the repository -/

/-- THREE.MathUtils.degToRad: `degrees * ( Math.PI / 180 )`. -/
def degToRad (d : ℝ) : ℝ := d * (Real.pi / 180)

/-- THREE.MathUtils.radToDeg: `radians * ( 180 / Math.PI )`. -/
def radToDeg (r : ℝ) : ℝ := r * (180 / Real.pi)

/-- Math.atan2(y, x) over the reals, via the complex argument of `x + y*i`;
this agrees with the JavaScript builtin away from signed zeros. -/
def atan2JS (y x : ℝ) : ℝ := Complex.arg ⟨x, y⟩

/-- THREE.MathUtils.clamp(value, min, max) = `Math.max( min, Math.min( max, value ) )`. -/
def clampJS (value lo hi : ℝ) : ℝ := max lo (min hi value)

/-- From src/math/utils.js: `atan2In2PI(y, x) = Math.atan2(-y, -x) + Math.PI`. -/
def atan2In2PI (y x : ℝ) : ℝ := atan2JS (-y) (-x) + Real.pi

/-- From src/math/utils.js: `reverseInPI(angle) = Math.PI - angle`. -/
def reverseInPI (angle : ℝ) : ℝ := Real.pi - angle

/-- From src/math/utils.js: `rotatePI(angle) = angle < Math.PI ? angle + Math.PI : angle - Math.PI`. -/
def rotatePI (angle : ℝ) : ℝ := if angle < Real.pi then angle + Real.pi else angle - Real.pi

/-- From src/math/utils.js: `rotate180(angle) = angle < 180 ? angle + 180 : angle - 180`. -/
def rotate180 (angle : ℝ) : ℝ := if angle < 180 then angle + 180 else angle - 180

/-! ## Mesh assembly: TubeBaseGeometry.generateIndices

The source loops `i = 1 .. axisSegments`, `j = 1 .. crossSegments` and pushes
the two triangles `(a, b, d)` and `(b, c, d)` of each quad. -/

/-- The loop body for quad `(i, j)` (`1 ≤ i ≤ axisSegments`,
`1 ≤ j ≤ crossSegments`): the six indices pushed for the two faces. -/
def quadIndices (crossSegments i j : ℕ) : List ℕ :=
  let a := (crossSegments + 1) * (i - 1) + (j - 1)
  let b := (crossSegments + 1) * i + (j - 1)
  let c := (crossSegments + 1) * i + j
  let d := (crossSegments + 1) * (i - 1) + j
  [a, b, d, b, c, d]

/-- The inner loop: all quads of axis ring band `i`. -/
def ringIndices (crossSegments i : ℕ) : List ℕ :=
  (List.range crossSegments).flatMap (fun j0 => quadIndices crossSegments i (j0 + 1))

def generateIndices (axisSegments crossSegments : ℕ) : List ℕ :=
  (List.range axisSegments).flatMap (fun i0 => ringIndices crossSegments (i0 + 1))

/-! ## Finiteness-tracking arithmetic

`Option ℝ` models a JavaScript number: `some r` is a finite value, `none`
stands for `NaN`/`Infinity`.  Division by zero produces `none` (in JavaScript
`x/0` is `±Infinity` and `0/0` is `NaN`); every other operation propagates
`none`.  Overflow of finite values is not modelled. -/

abbrev OR := Option ℝ

def oadd (a b : OR) : OR := Option.map₂ (· + ·) a b

def osub (a b : OR) : OR := Option.map₂ (· - ·) a b

def omul (a b : OR) : OR := Option.map₂ (· * ·) a b

def oneg (a : OR) : OR := a.map Neg.neg

def odiv (a b : OR) : OR :=
  match a, b with
  | some u, some v => if v = 0 then none else some (u / v)
  | _, _ => none

def osqrt (a : OR) : OR :=
  match a with
  | some u => if u < 0 then none else some (Real.sqrt u)
  | none => none

def ocos (a : OR) : OR := a.map Real.cos

def osin (a : OR) : OR := a.map Real.sin

@[ext]
structure O2 where
  x : OR
  y : OR

@[ext]
structure O3 where
  x : OR
  y : OR
  z : OR

def V2.toO (v : V2) : O2 := ⟨some v.x, some v.y⟩

def V3.toO (v : V3) : O3 := ⟨some v.x, some v.y, some v.z⟩

def O2.withZ (p : O2) (z : OR) : O3 := ⟨p.x, p.y, z⟩

def o3sub (a b : O3) : O3 := ⟨osub a.x b.x, osub a.y b.y, osub a.z b.z⟩

/-- THREE.Vector3.cross. -/
def o3cross (a b : O3) : O3 :=
  ⟨osub (omul a.y b.z) (omul a.z b.y),
   osub (omul a.z b.x) (omul a.x b.z),
   osub (omul a.x b.y) (omul a.y b.x)⟩

/-- THREE.Vector2.rotateAround(center, angle). -/
def o2rotateAround (v center : O2) (angle : OR) : O2 :=
  let c := ocos angle
  let s := osin angle
  let x := osub v.x center.x
  let y := osub v.y center.y
  ⟨oadd (osub (omul x c) (omul y s)) center.x,
   oadd (oadd (omul x s) (omul y c)) center.y⟩

/-- The constant `center = new THREE.Vector2(0, 0)` of generateSegment. -/
def centerO : O2 := ⟨some 0, some 0⟩

/-- The JavaScript expression `length || 1`: a zero length (or a NaN one —
NaN is falsy) falls back to 1. -/
def lengthOrOne (len : OR) : OR :=
  match len with
  | some l => if l = 0 then some 1 else some l
  | none => some 1

/-- THREE.Vector3.normalize = `divideScalar( this.length() || 1 )`. -/
def o3normalize (v : O3) : O3 :=
  let len := osqrt (oadd (oadd (omul v.x v.x) (omul v.y v.y)) (omul v.z v.z))
  let d : OR := lengthOrOne len
  ⟨odiv v.x d, odiv v.y d, odiv v.z d⟩

/-! ## The tube generator environment

`TubeBaseGeometry`'s constructor receives curve objects and calls external
three.js methods on them (`getPointAt`, `computeFrenetFrames`,
`getSpacedPoints`, `getLength`).  The environment collects the repository's
own numeric parameters together with the values those external calls return:
per-ring axis frames, precomputed cross-section sample points and binormals,
and the modulation curves as sampling functions `u ↦ getPointAt(u)`. -/

inductive CurvatureOrder where
  | xy
  | yx

structure TubeEnv where
  axisSegments : ℕ
  crossSegments : ℕ
  scaleN : ℝ
  xScaleN : ℝ
  yScaleN : ℝ
  xCurvatureN : ℝ
  yCurvatureN : ℝ
  tiltN : ℝ
  scaleC : ℝ → V2
  xScaleC : ℝ → V2
  yScaleC : ℝ → V2
  xCurvatureC : ℝ → V2
  yCurvatureC : ℝ → V2
  tiltC : ℝ → V2
  curvatureOrder : CurvatureOrder
  axisPointAt : ℝ → V3
  axisNormals : ℕ → V3
  axisBinormals : ℕ → V3
  axisTangents : ℕ → V3
  crossPoints : ℕ → V2
  crossBinormals : ℕ → V2
  axisLength : ℝ

/-! ## generateSegment, first loop: per-ring modulation and vertices -/

structure RingMod where
  scale : ℝ
  xScale : ℝ
  yScale : ℝ
  xCurvature : ℝ
  yCurvature : ℝ
  tilt : ℝ

/-- Lines 172-179 of the generator: per-ring resolution of the modulation
parameters at `u = i / axisSegments`.  `getPointAt` of each modulation curve
is the corresponding sampling function of the environment, and `.y` is its
second component. -/
def ringModulation (env : TubeEnv) (i : ℕ) : RingMod :=
  let u : ℝ := (i : ℝ) / (env.axisSegments : ℝ)
  { scale := env.scaleN * (env.scaleC u).y
    xScale := env.xScaleN * (env.xScaleC u).y
    yScale := env.yScaleN * (env.yScaleC u).y
    xCurvature := env.xCurvatureN + (env.xCurvatureC u).y
    yCurvature := env.yCurvatureN + (env.yCurvatureC u).y
    tilt := degToRad (env.tiltN + (env.tiltC u).y) }

/-- applyXCurvatureToCP: short-circuits at curvature 0, otherwise maps the
point onto an arc of radius `1 / xCurvature`. -/
def applyXCurvatureToCP (xCurvature : ℝ) (CP : O2) : O2 :=
  if xCurvature = 0 then CP else
  let r := odiv (some 1) (some xCurvature)
  let rMinuxX := osub r CP.x
  let theta := omul CP.y (some xCurvature)
  ⟨osub r (omul rMinuxX (ocos theta)), omul rMinuxX (osin theta)⟩

/-- applyYCurvatureToCP. -/
def applyYCurvatureToCP (yCurvature : ℝ) (CP : O2) : O2 :=
  if yCurvature = 0 then CP else
  let r := odiv (some 1) (some yCurvature)
  let rMinuxY := osub r CP.y
  let theta := omul CP.x (some yCurvature)
  ⟨omul rMinuxY (osin theta), osub r (omul rMinuxY (ocos theta))⟩

/-- applyXCurvatureToCB: rotates the binormal by `-(CPy * xCurvature)`. -/
def applyXCurvatureToCB (xCurvature : ℝ) (CPy : OR) (CB : O2) : O2 :=
  if xCurvature = 0 then CB else
  o2rotateAround CB centerO (oneg (omul CPy (some xCurvature)))

/-- applyYCurvatureToCB: rotates the binormal by `CPx * yCurvature`. -/
def applyYCurvatureToCB (yCurvature : ℝ) (CPx : OR) (CB : O2) : O2 :=
  if yCurvature = 0 then CB else
  o2rotateAround CB centerO (omul CPx (some yCurvature))

/-- The cross-section point after uniform scale and the per-axis scales,
before the curvature bends (the source's `CP` just after `CP.x *= xScale;
CP.y *= yScale`, whose coordinates are saved as `CPx`/`CPy`). -/
def crossPointScaled (env : TubeEnv) (i j : ℕ) : O2 :=
  let m := ringModulation env i
  let CP0 := (env.crossPoints j).toO
  let CP1 : O2 := ⟨omul CP0.x (some m.scale), omul CP0.y (some m.scale)⟩
  ⟨omul CP1.x (some m.xScale), omul CP1.y (some m.yScale)⟩

/-- The cross-section point after scaling, both curvature bends (in the
order selected by `curvatureOrder`) and the tilt rotation; this is the value
pushed on `CPsAfter` by the first loop. -/
def crossPointAfter (env : TubeEnv) (i j : ℕ) : O2 :=
  let m := ringModulation env i
  let CP2 := crossPointScaled env i j
  let CP3 :=
    match env.curvatureOrder with
    | CurvatureOrder.xy => applyYCurvatureToCP m.yCurvature (applyXCurvatureToCP m.xCurvature CP2)
    | CurvatureOrder.yx => applyXCurvatureToCP m.xCurvature (applyYCurvatureToCP m.yCurvature CP2)
  o2rotateAround CP3 centerO (some m.tilt)

/-- The cross-section binormal after the swapped scales (`CB.x *= yScale;
CB.y *= xScale`), the curvature rotations and the tilt rotation. -/
def crossBinormalAfter (env : TubeEnv) (i j : ℕ) : O2 :=
  let m := ringModulation env i
  let CP2 := crossPointScaled env i j
  let CB0 := (env.crossBinormals j).toO
  let CB1 : O2 := ⟨omul CB0.x (some m.yScale), omul CB0.y (some m.xScale)⟩
  let CB2 :=
    match env.curvatureOrder with
    | CurvatureOrder.xy =>
        applyYCurvatureToCB m.yCurvature CP2.x (applyXCurvatureToCB m.xCurvature CP2.y CB1)
    | CurvatureOrder.yx =>
        applyXCurvatureToCB m.xCurvature CP2.y (applyYCurvatureToCB m.yCurvature CP2.x CB1)
  o2rotateAround CB2 centerO (some m.tilt)

/-- First-loop normal of vertex `(i, j)`:
`normalize( CB.x * AN + (-CB.y) * AB )`. -/
def baseNormal (env : TubeEnv) (i j : ℕ) : O3 :=
  let CB := crossBinormalAfter env i j
  let AN := (env.axisNormals i).toO
  let AB := (env.axisBinormals i).toO
  o3normalize
    ⟨oadd (omul CB.x AN.x) (omul (oneg CB.y) AB.x),
     oadd (omul CB.x AN.y) (omul (oneg CB.y) AB.y),
     oadd (omul CB.x AN.z) (omul (oneg CB.y) AB.z)⟩

/-- Vertex `(i, j)`: `AP + (-CP.x) * AN + CP.y * AB`. -/
def tubeVertex (env : TubeEnv) (i j : ℕ) : O3 :=
  let CP := crossPointAfter env i j
  let AP := (env.axisPointAt ((i : ℝ) / (env.axisSegments : ℝ))).toO
  let AN := (env.axisNormals i).toO
  let AB := (env.axisBinormals i).toO
  ⟨oadd AP.x (oadd (omul (oneg CP.x) AN.x) (omul CP.y AB.x)),
   oadd AP.y (oadd (omul (oneg CP.x) AN.y) (omul CP.y AB.y)),
   oadd AP.z (oadd (omul (oneg CP.x) AN.z) (omul CP.y AB.z))⟩

/-! ## generateSegment, second loop: the finite-difference normal post-pass -/

/-- `axis.getLength() / axisSegments`. -/
def axisLengthSegment (env : TubeEnv) : OR :=
  odiv (some env.axisLength) (some ((env.axisSegments : ℕ) : ℝ))

/-- The finite-difference cross product taken towards the previous ring
(`n12`), used for `i = axisSegments` and as the first product of interior
rings: `j = 0` gives `v1222 × v2322`, otherwise `v2122 × v1222`. -/
def postCrossLower (env : TubeEnv) (i j : ℕ) : O3 :=
  let L := axisLengthSegment env
  let p22 := (crossPointAfter env i j).withZ (some 0)
  let p12 := (crossPointAfter env (i - 1) j).withZ (oneg L)
  if j = 0 then
    let p23 := (crossPointAfter env i (j + 1)).withZ (some 0)
    o3cross (o3sub p12 p22) (o3sub p23 p22)
  else
    let p21 := (crossPointAfter env i (j - 1)).withZ (some 0)
    o3cross (o3sub p21 p22) (o3sub p12 p22)

/-- The finite-difference cross product taken towards the next ring (`n32`),
used for `i = 0` and as the second product of interior rings: `j = 0` gives
`v2322 × v3222`, otherwise `v3222 × v2122`. -/
def postCrossUpper (env : TubeEnv) (i j : ℕ) : O3 :=
  let L := axisLengthSegment env
  let p22 := (crossPointAfter env i j).withZ (some 0)
  let p32 := (crossPointAfter env (i + 1) j).withZ L
  if j = 0 then
    let p23 := (crossPointAfter env i (j + 1)).withZ (some 0)
    o3cross (o3sub p23 p22) (o3sub p32 p22)
  else
    let p21 := (crossPointAfter env i (j - 1)).withZ (some 0)
    o3cross (o3sub p32 p22) (o3sub p21 p22)

/-- The `(xy, z)` pair of the post-pass: boundary rings use a single cross
product, interior rings average the two. -/
def postXYZ (env : TubeEnv) (i j : ℕ) : OR × OR :=
  if i = 0 then
    let c := postCrossUpper env i j
    (osqrt (oadd (omul c.x c.x) (omul c.y c.y)), c.z)
  else if i = env.axisSegments then
    let c := postCrossLower env i j
    (osqrt (oadd (omul c.x c.x) (omul c.y c.y)), c.z)
  else
    let c1 := postCrossLower env i j
    let c2 := postCrossUpper env i j
    let xy1 := osqrt (oadd (omul c1.x c1.x) (omul c1.y c1.y))
    let xy2 := osqrt (oadd (omul c2.x c2.x) (omul c2.y c2.y))
    (odiv (oadd xy1 xy2) (some 2), odiv (oadd c1.z c2.z) (some 2))

/-- The corrected normal written back into the buffer:
`normalize( normals[n0] + (z / xy) * AT )`.  The division `z / xy` is the
unguarded tangent-blend weight. -/
def postNormal (env : TubeEnv) (i j : ℕ) : O3 :=
  let bn := baseNormal env i j
  let p := postXYZ env i j
  let w := odiv p.2 p.1
  let AT := (env.axisTangents i).toO
  o3normalize
    ⟨oadd bn.x (omul w AT.x), oadd bn.y (omul w AT.y), oadd bn.z (omul w AT.z)⟩

/-! ## Output buffers -/

/-- The final flat normal buffer: the post-pass overwrites every entry of the
first-loop buffer, so the final buffer lists `postNormal` ring by ring. -/
def tubeNormalsBuffer (env : TubeEnv) : List OR :=
  (List.range (env.axisSegments + 1)).flatMap (fun i =>
    (List.range (env.crossSegments + 1)).flatMap (fun j =>
      [(postNormal env i j).x, (postNormal env i j).y, (postNormal env i j).z]))

/-- The flat vertex position buffer. -/
def tubeVerticesBuffer (env : TubeEnv) : List OR :=
  (List.range (env.axisSegments + 1)).flatMap (fun i =>
    (List.range (env.crossSegments + 1)).flatMap (fun j =>
      [(tubeVertex env i j).x, (tubeVertex env i j).y, (tubeVertex env i j).z]))

/-- generateUVs: `uv = (i / axisSegments, j / crossSegments)` per vertex. -/
def tubeUVsBuffer (env : TubeEnv) : List ℝ :=
  (List.range (env.axisSegments + 1)).flatMap (fun i =>
    (List.range (env.crossSegments + 1)).flatMap (fun j =>
      [(i : ℝ) / (env.axisSegments : ℝ), (j : ℝ) / (env.crossSegments : ℝ)]))

/-! ## Polar / spherical coordinate records -/

/-- The value part of src/math/circular.js (radius, angle in degrees). -/
@[ext]
structure CircR where
  radius : ℝ
  angle : ℝ

/-- Circular.setFromVector2:
`radius = sqrt(x² + y²)`, `angle = radToDeg(atan2(-y, -x) + π)`. -/
def circSetFromVector2 (v : V2) : CircR :=
  ⟨Real.sqrt (v.x ^ 2 + v.y ^ 2), radToDeg (atan2JS (-v.y) (-v.x) + Real.pi)⟩

/-- Circular.x(): `radius * cos(degToRad(angle))`. -/
def CircR.xval (c : CircR) : ℝ := c.radius * Real.cos (degToRad c.angle)

/-- Circular.y(): `radius * sin(degToRad(angle))`. -/
def CircR.yval (c : CircR) : ℝ := c.radius * Real.sin (degToRad c.angle)

/-- The value part of THREE.Spherical. -/
@[ext]
structure SphR where
  radius : ℝ
  phi : ℝ
  theta : ℝ

/-- THREE.Spherical.setFromVector3 (setFromCartesianCoords): radius is the
euclidean length; for a nonzero radius, `theta = atan2(x, z)` and
`phi = acos(clamp(y / radius, -1, 1))`; a zero radius yields zero angles. -/
def sphSetFromVector3 (v : V3) : SphR :=
  let r := Real.sqrt (v.x ^ 2 + v.y ^ 2 + v.z ^ 2)
  if r = 0 then ⟨r, 0, 0⟩
  else ⟨r, Real.arccos (clampJS (v.y / r) (-1) 1), atan2JS v.x v.z⟩

/-- THREE.Vector3.setFromSpherical (setFromSphericalCoords):
`x = r sin φ sin θ`, `y = r cos φ`, `z = r sin φ cos θ`. -/
def vecSetFromSpherical (s : SphR) : V3 :=
  let sinPhiRadius := Real.sin s.phi * s.radius
  ⟨sinPhiRadius * Real.sin s.theta, Real.cos s.phi * s.radius, sinPhiRadius * Real.cos s.theta⟩

/-! ## ControlPoint3 (src/curve/control-point-3.js, up/down variant)

The stored state: middle anchor, the up/down handle positions, and for each
handle the redundant vector (`V`), spherical (`S`) and per-axis angle (`A`)
representations, plus the two synchronisation flags. -/

@[ext]
structure ControlPoint3 where
  middlePos : V3
  upPos : V3
  upV : V3
  upS : SphR
  upA : V3
  downPos : V3
  downV : V3
  downS : SphR
  downA : V3
  isSyncRadius : Bool
  isSyncAngle : Bool

/-- ControlPoint3.getA: the three per-axis angles of a vector, in degrees. -/
def getA3 (v : V3) : V3 :=
  ⟨radToDeg (atan2In2PI v.z v.y), radToDeg (atan2In2PI v.x v.z), radToDeg (atan2In2PI v.y v.x)⟩

/-- ControlPoint3.syncUpToDown: if either flag is set, mirror the up handle
into the down handle through the spherical representation (same radius,
`phi ↦ π - phi`, `theta ↦ rotatePI theta`) and rebuild `downV`, `downA`,
`downPos` from it. -/
def ControlPoint3.syncUpToDown (cp : ControlPoint3) : ControlPoint3 :=
  if cp.isSyncRadius = false ∧ cp.isSyncAngle = false then cp else
  let dS : SphR :=
    ⟨if cp.isSyncRadius then cp.upS.radius else cp.downS.radius,
     if cp.isSyncAngle then reverseInPI cp.upS.phi else cp.downS.phi,
     if cp.isSyncAngle then rotatePI cp.upS.theta else cp.downS.theta⟩
  let dV := vecSetFromSpherical dS
  { cp with downS := dS, downV := dV, downA := getA3 dV, downPos := cp.middlePos + dV }

/-- ControlPoint3.updateFromUpPos: recompute `upV`, `upS`, `upA` from the
stored `upPos`, then synchronise down. -/
def ControlPoint3.updateFromUpPos (cp : ControlPoint3) : ControlPoint3 :=
  let uV := cp.upPos - cp.middlePos
  ControlPoint3.syncUpToDown
    { cp with upV := uV, upS := sphSetFromVector3 uV, upA := getA3 uV }

/-- ControlPoint3.updateFromUpS: rebuild `upV`, `upA`, `upPos` from the
stored `upS`, then synchronise down. -/
def ControlPoint3.updateFromUpS (cp : ControlPoint3) : ControlPoint3 :=
  let uV := vecSetFromSpherical cp.upS
  ControlPoint3.syncUpToDown
    { cp with upV := uV, upA := getA3 uV, upPos := cp.middlePos + uV }

/-! ## ControlPoint2 (left/right variant with Circular polar form) -/

@[ext]
structure ControlPoint2 where
  middlePos : V2
  leftPos : V2
  leftV : V2
  leftC : CircR
  rightPos : V2
  rightV : V2
  rightC : CircR
  isSyncRadius : Bool
  isSyncAngle : Bool

/-- The ControlPoint2 constructor: stores the three positions and derives
`leftV`/`leftC` (initLeft) and `rightV`/`rightC` (initRight). -/
def ControlPoint2.init (middlePos leftPos rightPos : V2) (isSyncRadius isSyncAngle : Bool) :
    ControlPoint2 :=
  { middlePos := middlePos
    leftPos := leftPos
    leftV := leftPos - middlePos
    leftC := circSetFromVector2 (leftPos - middlePos)
    rightPos := rightPos
    rightV := rightPos - middlePos
    rightC := circSetFromVector2 (rightPos - middlePos)
    isSyncRadius := isSyncRadius
    isSyncAngle := isSyncAngle }

/-- A default-constructed `new ControlPoint2()`:
middle (0,0), left (-1,0), right (1,0), both sync flags true. -/
def ControlPoint2.defaultCp : ControlPoint2 :=
  ControlPoint2.init ⟨0, 0⟩ ⟨-1, 0⟩ ⟨1, 0⟩ true true

/-- ControlPoint2.syncLeftToRight: if either flag is set, copy radius and/or
the 180°-rotated angle from `leftC` into `rightC`, then rebuild `rightV` and
`rightPos` from the polar form. -/
def ControlPoint2.syncLeftToRight (cp : ControlPoint2) : ControlPoint2 :=
  if cp.isSyncRadius = false ∧ cp.isSyncAngle = false then cp else
  let rC : CircR :=
    ⟨if cp.isSyncRadius then cp.leftC.radius else cp.rightC.radius,
     if cp.isSyncAngle then rotate180 cp.leftC.angle else cp.rightC.angle⟩
  let rV : V2 := ⟨rC.xval, rC.yval⟩
  { cp with rightC := rC, rightV := rV, rightPos := cp.middlePos + rV }

/-- ControlPoint2.syncRightToLeft, the mirror image. -/
def ControlPoint2.syncRightToLeft (cp : ControlPoint2) : ControlPoint2 :=
  if cp.isSyncRadius = false ∧ cp.isSyncAngle = false then cp else
  let lC : CircR :=
    ⟨if cp.isSyncRadius then cp.rightC.radius else cp.leftC.radius,
     if cp.isSyncAngle then rotate180 cp.rightC.angle else cp.leftC.angle⟩
  let lV : V2 := ⟨lC.xval, lC.yval⟩
  { cp with leftC := lC, leftV := lV, leftPos := cp.middlePos + lV }

/-- ControlPoint2.updateFromLeftPos. -/
def ControlPoint2.updateFromLeftPos (cp : ControlPoint2) : ControlPoint2 :=
  let lV := cp.leftPos - cp.middlePos
  ControlPoint2.syncLeftToRight { cp with leftV := lV, leftC := circSetFromVector2 lV }

/-- ControlPoint2.updateFromRightPos. -/
def ControlPoint2.updateFromRightPos (cp : ControlPoint2) : ControlPoint2 :=
  let rV := cp.rightPos - cp.middlePos
  ControlPoint2.syncRightToLeft { cp with rightV := rV, rightC := circSetFromVector2 rV }

/-! ## Index validation (JavaScript indices are arbitrary numbers) -/

/-- The rational index `q` as a natural number, used after validation. -/
def qIdx (q : ℚ) : ℕ := q.num.toNat

/-- Curve2.isInvalidIndex(index, max) (two-argument method form): invalid if
the index is not an integer or lies outside `[0, max]`.  (The method also
checks that `max` is an integer, which holds for every call site.) -/
def isInvalidIndex2 (index : ℚ) (max : ℤ) : Bool :=
  (index.den != 1) || decide (index < 0) || decide ((max : ℚ) < index)

/-- isInvalidIndex(index, min, max) from src/math/utils.js (three-argument
utility form): invalid if the index is not an integer or lies outside
`[min, max]`. -/
def isInvalidIndex3 (index : ℚ) (min max : ℤ) : Bool :=
  (index.den != 1) || decide (index < (min : ℚ)) || decide ((max : ℚ) < index)

/-! ## Curve2, segment-maintaining revision (fillAllCurves/addCp/removeCp/updateCp) -/

/-- A cubic Bezier segment (THREE.CubicBezierCurve control points). -/
@[ext]
structure Bez2 where
  v0 : V2
  v1 : V2
  v2 : V2
  v3 : V2

/-- JavaScript Array.prototype.splice restricted to in-range arguments:
remove `deleteCount` elements at `start` and insert `items` there. -/
def listSplice {α : Type} (l : List α) (start deleteCount : ℕ) (items : List α) : List α :=
  l.take start ++ items ++ l.drop (start + deleteCount)

/-- Curve2.createCurve(index): guarded by `isInvalidIndex(index, cps.length - 2)`;
on an invalid index the JavaScript function returns `undefined` (modelled as
`none`), otherwise the cubic through `cps[index].middlePos`,
`cps[index].rightPos`, `cps[index+1].leftPos`, `cps[index+1].middlePos`. -/
def createCurve (cps : List ControlPoint2) (index : ℚ) : Option Bez2 :=
  if isInvalidIndex2 index ((cps.length : ℤ) - 2) then none else
  let i := qIdx index
  some ⟨(cps.getD i ControlPoint2.defaultCp).middlePos,
        (cps.getD i ControlPoint2.defaultCp).rightPos,
        (cps.getD (i + 1) ControlPoint2.defaultCp).leftPos,
        (cps.getD (i + 1) ControlPoint2.defaultCp).middlePos⟩

/-- Curve2.fillAllCurves: `curves[i] = createCurve(i)` for `i < cps.length - 1`. -/
def fillAllCurves (cps : List ControlPoint2) : List (Option Bez2) :=
  (List.range (cps.length - 1)).map (fun i => createCurve cps (i : ℚ))

/-- The state of the segment-maintaining Curve2 revision.  The `curves` list
holds `Option Bez2` because `createCurve` can return `undefined` and the
source splices its result into the array unconditionally. -/
structure Curve2Seg where
  cps : List ControlPoint2
  curves : List (Option Bez2)

/-- The Curve2 constructor of the segment-maintaining revision: store the
control points and run `fillAllCurves`. -/
def Curve2Seg.init (cps : List ControlPoint2) : Curve2Seg :=
  ⟨cps, fillAllCurves cps⟩

/-- Curve2.addCp(index, cp): guard, splice `cp` into `cps`, then splice the
affected segments.  The second branch's test `index === this.cps.length - 1`
reads the length after the insertion. -/
def Curve2Seg.addCp (st : Curve2Seg) (index : ℚ) (cp : ControlPoint2) : Curve2Seg :=
  if isInvalidIndex2 index (st.cps.length : ℤ) then st else
  let i := qIdx index
  let cps1 := st.cps.insertIdx i cp
  if i = 0 then
    { cps := cps1, curves := listSplice st.curves 0 0 [createCurve cps1 0] }
  else if i = cps1.length - 1 then
    { cps := cps1, curves := listSplice st.curves (i - 1) 0 [createCurve cps1 ((i : ℚ) - 1)] }
  else
    { cps := cps1
      curves := listSplice st.curves (i - 1) 1
        [createCurve cps1 ((i : ℚ) - 1), createCurve cps1 (i : ℚ)] }

/-- Curve2.removeCp(index) of the segment-maintaining revision.  The second
branch's test `index === this.cps.length` reads the length after removal. -/
def Curve2Seg.removeCp (st : Curve2Seg) (index : ℚ) : Curve2Seg :=
  if isInvalidIndex2 index ((st.cps.length : ℤ) - 1) then st else
  let i := qIdx index
  let cps1 := st.cps.eraseIdx i
  if i = 0 then
    { cps := cps1, curves := listSplice st.curves 0 1 [] }
  else if i = cps1.length then
    { cps := cps1, curves := listSplice st.curves (i - 1) 1 [] }
  else
    { cps := cps1, curves := listSplice st.curves (i - 1) 2 [createCurve cps1 ((i : ℚ) - 1)] }

/-- Curve2.updateCp(index, cp) of the segment-maintaining revision, with a
non-null `cp` (the `cps[index].copy(cp)` path). -/
def Curve2Seg.updateCp (st : Curve2Seg) (index : ℚ) (cp : ControlPoint2) : Curve2Seg :=
  if isInvalidIndex2 index ((st.cps.length : ℤ) - 1) then st else
  let i := qIdx index
  let cps1 := st.cps.set i cp
  if i = 0 then
    { cps := cps1, curves := listSplice st.curves 0 1 [createCurve cps1 0] }
  else if i = cps1.length - 1 then
    { cps := cps1, curves := listSplice st.curves (i - 1) 1 [createCurve cps1 ((i : ℚ) - 1)] }
  else
    { cps := cps1
      curves := listSplice st.curves (i - 1) 2
        [createCurve cps1 ((i : ℚ) - 1), createCurve cps1 (i : ℚ)] }

/-- The canonical segment list demanded by the specification: segment `i`
joins point `i` and point `i + 1`, so the list has length `max 0 (N - 1)`. -/
def derivedCurves (cps : List ControlPoint2) : List (Option Bez2) :=
  (List.range (cps.length - 1)).map (fun i =>
    some ⟨(cps.getD i ControlPoint2.defaultCp).middlePos,
          (cps.getD i ControlPoint2.defaultCp).rightPos,
          (cps.getD (i + 1) ControlPoint2.defaultCp).leftPos,
          (cps.getD (i + 1) ControlPoint2.defaultCp).middlePos⟩)

/-! ## Curve2, editing revision (addCpToFirst/addCpToLast/interpolateCp/removeCp)

This revision keeps `this.curves` as a separately refreshed cache
(`updateCurves`); the editing operations below touch only `this.cps`. -/

structure Curve2Edit where
  cps : List ControlPoint2
  curves : List Bez2

/-- Curve2.addCpToFirst: unshift a clone of the first point, or a fresh
default point when the list is empty. -/
def Curve2Edit.addCpToFirst (st : Curve2Edit) : Curve2Edit :=
  if st.cps.length ≠ 0 then
    { st with cps := st.cps.getD 0 ControlPoint2.defaultCp :: st.cps }
  else
    { st with cps := [ControlPoint2.defaultCp] }

/-- Curve2.addCpToLast: push a clone of the last point, or a fresh default
point when the list is empty. -/
def Curve2Edit.addCpToLast (st : Curve2Edit) : Curve2Edit :=
  if st.cps.length ≠ 0 then
    { st with cps := st.cps ++ [st.cps.getLastD ControlPoint2.defaultCp] }
  else
    { st with cps := [ControlPoint2.defaultCp] }

/-- Curve2.interpolateCp(index): guarded by `isInvalidIndex(index, 1,
cps.length - 1)`; splices a clone of `cps[index]` in at `index`, reassigns
the handle positions by the midpoint formulas (in source order: `centerPos`
is computed from the old handles, `cp1.rightPos` and `cp3.leftPos` are
halved towards their anchors, then the new point's handles and anchor are
built from the updated values), and finally runs the four
`updateFrom*Pos` recomputations (which also synchronise). -/
def Curve2Edit.interpolateCp (st : Curve2Edit) (index : ℚ) : Curve2Edit :=
  if isInvalidIndex3 index 1 ((st.cps.length : ℤ) - 1) then st else
  let i := qIdx index
  let d := ControlPoint2.defaultCp
  let cps1 := st.cps.insertIdx i (st.cps.getD i d)
  let cp1 := cps1.getD (i - 1) d
  let cp2 := cps1.getD i d
  let cp3 := cps1.getD (i + 1) d
  let centerPos := (cp1.rightPos + cp3.leftPos).divScalar 2
  let cp1a := { cp1 with rightPos := (cp1.middlePos + cp1.rightPos).divScalar 2 }
  let cp3a := { cp3 with leftPos := (cp3.leftPos + cp3.middlePos).divScalar 2 }
  let cp2a := { cp2 with leftPos := (cp1a.rightPos + centerPos).divScalar 2 }
  let cp2b := { cp2a with rightPos := (centerPos + cp3a.leftPos).divScalar 2 }
  let cp2c := { cp2b with middlePos := (cp2b.leftPos + cp2b.rightPos).divScalar 2 }
  let cp1b := cp1a.updateFromRightPos
  let cp2d := cp2c.updateFromLeftPos
  let cp2e := cp2d.updateFromRightPos
  let cp3b := cp3a.updateFromLeftPos
  { st with cps := ((cps1.set (i - 1) cp1b).set i cp2e).set (i + 1) cp3b }

/-- Curve2.removeCp(index) of the editing revision: guarded by
`isInvalidIndex(index, 0, cps.length - 1)`, then `cps.splice(index, 1)`. -/
def Curve2Edit.removeCp (st : Curve2Edit) (index : ℚ) : Curve2Edit :=
  if isInvalidIndex3 index 0 ((st.cps.length : ℤ) - 1) then st else
  { st with cps := st.cps.eraseIdx (qIdx index) }

/-! ## JSON serialisation (Tube / Curve / ControlPoint)

`Vector.toArray`/`fromArray` exchange a vector with a plain array;
`sphericalToJSON`/`sphericalFromJSON` and `Circular.toJSON`/`fromJSON` copy
the coordinate fields verbatim. -/

def V3.toArray (v : V3) : List ℝ := [v.x, v.y, v.z]

def V3.fromArray (l : List ℝ) : V3 := ⟨l.getD 0 0, l.getD 1 0, l.getD 2 0⟩

def V2.toArray (v : V2) : List ℝ := [v.x, v.y]

def V2.fromArray (l : List ℝ) : V2 := ⟨l.getD 0 0, l.getD 1 0⟩

structure SphJson where
  radius : ℝ
  phi : ℝ
  theta : ℝ

/-- sphericalToJSON from src/math/spherical.js. -/
def sphericalToJSON (s : SphR) : SphJson := ⟨s.radius, s.phi, s.theta⟩

/-- sphericalFromJSON (`s.set(json.radius, json.phi, json.theta)`). -/
def sphericalFromJSON (j : SphJson) : SphR := ⟨j.radius, j.phi, j.theta⟩

structure CircJson where
  radius : ℝ
  angle : ℝ

def circularToJSON (c : CircR) : CircJson := ⟨c.radius, c.angle⟩

def circularFromJSON (j : CircJson) : CircR := ⟨j.radius, j.angle⟩

structure ControlPoint3Json where
  middlePos : List ℝ
  upPos : List ℝ
  upV : List ℝ
  upS : SphJson
  upA : List ℝ
  downPos : List ℝ
  downV : List ℝ
  downS : SphJson
  downA : List ℝ
  isSyncRadius : Bool
  isSyncAngle : Bool

/-- ControlPoint3.toJSON: every stored field is serialised. -/
def ControlPoint3.toJSON (cp : ControlPoint3) : ControlPoint3Json :=
  { middlePos := cp.middlePos.toArray
    upPos := cp.upPos.toArray
    upV := cp.upV.toArray
    upS := sphericalToJSON cp.upS
    upA := cp.upA.toArray
    downPos := cp.downPos.toArray
    downV := cp.downV.toArray
    downS := sphericalToJSON cp.downS
    downA := cp.downA.toArray
    isSyncRadius := cp.isSyncRadius
    isSyncAngle := cp.isSyncAngle }

/-- ControlPoint3.fromJSON on a fresh point: every stored field is read
back, no recomputation happens. -/
def ControlPoint3.fromJSON (j : ControlPoint3Json) : ControlPoint3 :=
  { middlePos := V3.fromArray j.middlePos
    upPos := V3.fromArray j.upPos
    upV := V3.fromArray j.upV
    upS := sphericalFromJSON j.upS
    upA := V3.fromArray j.upA
    downPos := V3.fromArray j.downPos
    downV := V3.fromArray j.downV
    downS := sphericalFromJSON j.downS
    downA := V3.fromArray j.downA
    isSyncRadius := j.isSyncRadius
    isSyncAngle := j.isSyncAngle }

structure ControlPoint2Json where
  middlePos : List ℝ
  leftPos : List ℝ
  leftV : List ℝ
  leftC : CircJson
  rightPos : List ℝ
  rightV : List ℝ
  rightC : CircJson
  isSyncRadius : Bool
  isSyncAngle : Bool

/-- ControlPoint2.toJSON. -/
def ControlPoint2.toJSON (cp : ControlPoint2) : ControlPoint2Json :=
  { middlePos := cp.middlePos.toArray
    leftPos := cp.leftPos.toArray
    leftV := cp.leftV.toArray
    leftC := circularToJSON cp.leftC
    rightPos := cp.rightPos.toArray
    rightV := cp.rightV.toArray
    rightC := circularToJSON cp.rightC
    isSyncRadius := cp.isSyncRadius
    isSyncAngle := cp.isSyncAngle }

/-- ControlPoint2.fromJSON on a fresh point. -/
def ControlPoint2.fromJSON (j : ControlPoint2Json) : ControlPoint2 :=
  { middlePos := V2.fromArray j.middlePos
    leftPos := V2.fromArray j.leftPos
    leftV := V2.fromArray j.leftV
    leftC := circularFromJSON j.leftC
    rightPos := V2.fromArray j.rightPos
    rightV := V2.fromArray j.rightV
    rightC := circularFromJSON j.rightC
    isSyncRadius := j.isSyncRadius
    isSyncAngle := j.isSyncAngle }

/-- Modelled from the spec: the shared `Curve` base class (referenced by
curve-3.js and tube.js but not present under src/) serialises a curve as the
list of its control points — exactly the `data.cps = cps.map(toJSON)` /
rebuild-from-`json.cps` pattern that the Curve2 revisions in
src/curve/curve-2.js implement; the base class's own `THREE.CurvePath`
fields are derived data and are not part of the round-trip contract. -/
structure Curve3Json where
  cps : List ControlPoint3Json

structure Curve2Json where
  cps : List ControlPoint2Json

def curve3ToJSON (cps : List ControlPoint3) : Curve3Json :=
  ⟨cps.map ControlPoint3.toJSON⟩

def curve3FromJSON (j : Curve3Json) : List ControlPoint3 :=
  j.cps.map ControlPoint3.fromJSON

def curve2ToJSON (cps : List ControlPoint2) : Curve2Json :=
  ⟨cps.map ControlPoint2.toJSON⟩

def curve2FromJSON (j : Curve2Json) : List ControlPoint2 :=
  j.cps.map ControlPoint2.fromJSON

/-- The Tube parameter set (src/curve/tube.js).  Curves are represented by
their control-point lists; the numeric parameters are JavaScript numbers. -/
structure TubeParams where
  axis : List ControlPoint3
  cross : List ControlPoint2
  axisSegments : ℝ
  crossSegments : ℝ
  scaleN : ℝ
  xScaleN : ℝ
  yScaleN : ℝ
  xCurvatureN : ℝ
  yCurvatureN : ℝ
  tiltN : ℝ
  scaleC : List ControlPoint2
  xScaleC : List ControlPoint2
  yScaleC : List ControlPoint2
  xCurvatureC : List ControlPoint2
  yCurvatureC : List ControlPoint2
  tiltC : List ControlPoint2
  curvatureOrder : CurvatureOrder

structure TubeJson where
  axis : Curve3Json
  cross : Curve2Json
  axisSegments : ℝ
  crossSegments : ℝ
  scaleN : ℝ
  xScaleN : ℝ
  yScaleN : ℝ
  xCurvatureN : ℝ
  yCurvatureN : ℝ
  tiltN : ℝ
  scaleC : Curve2Json
  xScaleC : Curve2Json
  yScaleC : Curve2Json
  xCurvatureC : Curve2Json
  yCurvatureC : Curve2Json
  tiltC : Curve2Json
  curvatureOrder : CurvatureOrder

/-- Tube.toJSON: copy the parameters, replacing each curve by its JSON. -/
def tubeToJSON (p : TubeParams) : TubeJson :=
  { axis := curve3ToJSON p.axis
    cross := curve2ToJSON p.cross
    axisSegments := p.axisSegments
    crossSegments := p.crossSegments
    scaleN := p.scaleN
    xScaleN := p.xScaleN
    yScaleN := p.yScaleN
    xCurvatureN := p.xCurvatureN
    yCurvatureN := p.yCurvatureN
    tiltN := p.tiltN
    scaleC := curve2ToJSON p.scaleC
    xScaleC := curve2ToJSON p.xScaleC
    yScaleC := curve2ToJSON p.yScaleC
    xCurvatureC := curve2ToJSON p.xCurvatureC
    yCurvatureC := curve2ToJSON p.yCurvatureC
    tiltC := curve2ToJSON p.tiltC
    curvatureOrder := p.curvatureOrder }

/-- Tube.fromJSON: rebuild every parameter from the JSON. -/
def tubeFromJSON (j : TubeJson) : TubeParams :=
  { axis := curve3FromJSON j.axis
    cross := curve2FromJSON j.cross
    axisSegments := j.axisSegments
    crossSegments := j.crossSegments
    scaleN := j.scaleN
    xScaleN := j.xScaleN
    yScaleN := j.yScaleN
    xCurvatureN := j.xCurvatureN
    yCurvatureN := j.yCurvatureN
    tiltN := j.tiltN
    scaleC := curve2FromJSON j.scaleC
    xScaleC := curve2FromJSON j.xScaleC
    yScaleC := curve2FromJSON j.yScaleC
    xCurvatureC := curve2FromJSON j.xCurvatureC
    yCurvatureC := curve2FromJSON j.yCurvatureC
    tiltC := curve2FromJSON j.tiltC
    curvatureOrder := j.curvatureOrder }

/-! ## The TubeBaseGeometry constructor's effect on its parameter objects

`getTangentAt` of a 2D curve returns a `THREE.Vector2`; the constructor
reassigns `cross.getTangentAt` to a wrapper returning a `THREE.Vector3`.
A curve object is modelled as a record of its relevant method fields, and
the returned tangent as a sum distinguishing the two vector types. -/

inductive TangentValue where
  | vec2 (x y : ℝ)
  | vec3 (x y z : ℝ)

structure CrossCurveObj where
  getUtoTmapping : ℝ → ℝ
  getTangent : ℝ → V2
  getTangentAt : ℝ → TangentValue

/-- The assignment `cross.getTangentAt = function (u) { const t =
this.getUtoTmapping(u); const p = this.getTangent(t); return new
THREE.Vector3(p.x, p.y, 0); }` performed by the constructor. -/
def overrideGetTangentAt (cross : CrossCurveObj) : CrossCurveObj :=
  { cross with getTangentAt := fun u =>
      let t := cross.getUtoTmapping u
      let p := cross.getTangent t
      TangentValue.vec3 p.x p.y 0 }

/-- The constructor's parameter objects: the axis curve, the cross-section
curve, and the six modulation curves (each reduced to the fields the
constructor can observe or modify). -/
structure TubeCtorArgs where
  axis : ℝ → V3
  cross : CrossCurveObj
  scaleC : ℝ → V2
  xScaleC : ℝ → V2
  yScaleC : ℝ → V2
  xCurvatureC : ℝ → V2
  yCurvatureC : ℝ → V2
  tiltC : ℝ → V2

/-- The net effect of the TubeBaseGeometry constructor on the caller's
parameter objects: every object is stored in `this.parameters` unchanged,
except that `cross.getTangentAt` is overwritten. -/
def tubeCtorEffect (a : TubeCtorArgs) : TubeCtorArgs :=
  { a with cross := overrideGetTangentAt a.cross }

/-- A concrete cross-section curve object with the stock three.js
`getTangentAt` behaviour (`getTangent(getUtoTmapping(u))`, a Vector2). -/
def crossObjSample : CrossCurveObj :=
  { getUtoTmapping := fun u => u
    getTangent := fun _ => ⟨1, 0⟩
    getTangentAt := fun _ => TangentValue.vec2 1 0 }

/-! ## Concrete sample inputs -/

/-- A small non-degenerate environment (straight vertical axis of length 4,
identity modulation), used to instantiate universally quantified theorems. -/
def envSample : TubeEnv :=
  { axisSegments := 1
    crossSegments := 3
    scaleN := 1, xScaleN := 1, yScaleN := 1
    xCurvatureN := 0, yCurvatureN := 0, tiltN := 0
    scaleC := fun _ => ⟨1, 1⟩
    xScaleC := fun _ => ⟨1, 1⟩
    yScaleC := fun _ => ⟨1, 1⟩
    xCurvatureC := fun _ => ⟨0, 0⟩
    yCurvatureC := fun _ => ⟨0, 0⟩
    tiltC := fun _ => ⟨0, 0⟩
    curvatureOrder := CurvatureOrder.xy
    axisPointAt := fun u => ⟨0, 4 * u, 0⟩
    axisNormals := fun _ => ⟨1, 0, 0⟩
    axisBinormals := fun _ => ⟨0, 0, 1⟩
    axisTangents := fun _ => ⟨0, 1, 0⟩
    crossPoints := fun _ => ⟨1, 0⟩
    crossBinormals := fun _ => ⟨1, 0⟩
    axisLength := 4 }

/-- The degenerate input of the safety claim: the same straight axis, but a
zero-radius cross-section (every cross sample point is the origin). -/
def envZeroCross : TubeEnv :=
  { envSample with crossPoints := fun _ => ⟨0, 0⟩ }

/-- A concrete ControlPoint3 with both sync flags set (the constructor's
default handle layout). -/
def cp3Sample : ControlPoint3 :=
  { middlePos := ⟨0, 0, 0⟩
    upPos := ⟨0, 1, 0⟩
    upV := ⟨0, 1, 0⟩
    upS := sphSetFromVector3 ⟨0, 1, 0⟩
    upA := getA3 ⟨0, 1, 0⟩
    downPos := ⟨0, -1, 0⟩
    downV := ⟨0, -1, 0⟩
    downS := sphSetFromVector3 ⟨0, -1, 0⟩
    downA := getA3 ⟨0, -1, 0⟩
    isSyncRadius := true
    isSyncAngle := true }

/-- First control point of the interpolation counterexample curve:
`new ControlPoint2((0,0), (-1,0), (2,2), true, true)`. -/
def cpInterpA : ControlPoint2 :=
  ControlPoint2.init ⟨0, 0⟩ ⟨-1, 0⟩ ⟨2, 2⟩ true true

/-- Second control point of the interpolation counterexample curve:
`new ControlPoint2((10,0), (8,0), (12,0), true, false)` — radius
synchronisation on, angle synchronisation off. -/
def cpInterpB : ControlPoint2 :=
  ControlPoint2.init ⟨10, 0⟩ ⟨8, 0⟩ ⟨12, 0⟩ true false

/-- The 2-point curve of the interpolation counterexample. -/
def curveInterpCex : Curve2Edit := ⟨[cpInterpA, cpInterpB], []⟩

/-- A 2-point curve whose points have both sync flags set (the constructor
default), used as the witness input for the interpolation theorem. -/
def curveInterpW : Curve2Edit := ⟨[cpInterpA, cpInterpA], []⟩

/-!
# Theorems
-/

/-! ## Generic extraction and length lemmas for flatMap over a range -/

theorem flatMap_range_const_length {α : Type} (f : ℕ → List α) (c n : ℕ)
    (hc : ∀ k, (f k).length = c) : ((List.range n).flatMap f).length = n * c := by
  rw [List.length_flatMap]
  induction n with
  | zero => simp
  | succ m ih =>
      rw [List.range_succ, List.map_append, List.sum_append]
      simp [ih, hc, Nat.succ_mul]

theorem flatMap_range_extract {α : Type} (f : ℕ → List α) (c n i : ℕ)
    (hc : ∀ k, (f k).length = c) (hi : i < n) :
    (((List.range n).flatMap f).drop (i * c)).take c = f i := by
  have hsplit : n = i + (n - i) := by omega
  rw [hsplit, List.range_add, List.flatMap_append]
  have hlen : ((List.range i).flatMap f).length = i * c :=
    flatMap_range_const_length f c i hc
  rw [← hlen, List.drop_left]
  have hpos : n - i = (n - i - 1) + 1 := by omega
  rw [hpos, List.range_succ_eq_map, List.map_cons, List.flatMap_cons]
  have : i + 0 = i := by omega
  rw [this, ← hc i, List.take_left]

/-! ## C1: per-ring modulation resolution -/

/-- C1.  At every ring `i ≤ axisSegments`, with `u = i / axisSegments`, the
generator resolves `scale`, `xScale`, `yScale` by multiplying the scalar
parameter with the y-component of the sampled 2D modulation curve, resolves
`xCurvature` and `yCurvature` by adding the y-component of the sampled
curve, and resolves `tilt` as `degToRad` of the sum — so scales combine
multiplicatively, curvatures and tilt additively, and only the y-component
of each sampled point is used. -/
theorem c1_modulation_resolution (env : TubeEnv) (i : ℕ) (h : i ≤ env.axisSegments) :
    (ringModulation env i).scale
        = env.scaleN * (env.scaleC ((i : ℝ) / (env.axisSegments : ℝ))).y
    ∧ (ringModulation env i).xScale
        = env.xScaleN * (env.xScaleC ((i : ℝ) / (env.axisSegments : ℝ))).y
    ∧ (ringModulation env i).yScale
        = env.yScaleN * (env.yScaleC ((i : ℝ) / (env.axisSegments : ℝ))).y
    ∧ (ringModulation env i).xCurvature
        = env.xCurvatureN + (env.xCurvatureC ((i : ℝ) / (env.axisSegments : ℝ))).y
    ∧ (ringModulation env i).yCurvature
        = env.yCurvatureN + (env.yCurvatureC ((i : ℝ) / (env.axisSegments : ℝ))).y
    ∧ (ringModulation env i).tilt
        = degToRad (env.tiltN + (env.tiltC ((i : ℝ) / (env.axisSegments : ℝ))).y) :=
  ⟨rfl, rfl, rfl, rfl, rfl, rfl⟩

/-- Witness for C1 at the sample environment and ring 1. -/
theorem c1_modulation_resolution_witness :
    1 ≤ envSample.axisSegments
    ∧ ((ringModulation envSample 1).scale
          = envSample.scaleN * (envSample.scaleC ((1 : ℝ) / (envSample.axisSegments : ℝ))).y
        ∧ (ringModulation envSample 1).xScale
          = envSample.xScaleN * (envSample.xScaleC ((1 : ℝ) / (envSample.axisSegments : ℝ))).y
        ∧ (ringModulation envSample 1).yScale
          = envSample.yScaleN * (envSample.yScaleC ((1 : ℝ) / (envSample.axisSegments : ℝ))).y
        ∧ (ringModulation envSample 1).xCurvature
          = envSample.xCurvatureN + (envSample.xCurvatureC ((1 : ℝ) / (envSample.axisSegments : ℝ))).y
        ∧ (ringModulation envSample 1).yCurvature
          = envSample.yCurvatureN + (envSample.yCurvatureC ((1 : ℝ) / (envSample.axisSegments : ℝ))).y
        ∧ (ringModulation envSample 1).tilt
          = degToRad (envSample.tiltN + (envSample.tiltC ((1 : ℝ) / (envSample.axisSegments : ℝ))).y)) :=
  ⟨Nat.le_refl 1, c1_modulation_resolution envSample 1 (Nat.le_refl 1)⟩

/-! ## C2: index-buffer topology -/

theorem ringIndices_length (C i : ℕ) : (ringIndices C i).length = C * 6 :=
  flatMap_range_const_length _ 6 C (fun _ => rfl)

/-- C2.  For `axisSegments ≥ 1` and `crossSegments ≥ 3`: the index buffer
holds exactly `2 * axisSegments * crossSegments` triangles (three indices
each); every index lies below `(axisSegments+1) * (crossSegments+1)` and so
names a vertex of the grid that generateSegment actually emits (the vertex
buffer holds `(axisSegments+1) * (crossSegments+1)` vertices of three
coordinates each); and the six indices emitted for quad `(i0+1, j0+1)` are
exactly the two triangles `(a, b, d)` and `(b, c, d)` given by the row-major
corner formulas. -/
theorem c2_index_topology (env : TubeEnv)
    (hA : 1 ≤ env.axisSegments) (hC : 3 ≤ env.crossSegments) :
    (generateIndices env.axisSegments env.crossSegments).length
        = 2 * env.axisSegments * env.crossSegments * 3
    ∧ (∀ ix ∈ generateIndices env.axisSegments env.crossSegments,
        ix < (env.axisSegments + 1) * (env.crossSegments + 1))
    ∧ (tubeVerticesBuffer env).length
        = (env.axisSegments + 1) * (env.crossSegments + 1) * 3
    ∧ (∀ i0 j0, i0 < env.axisSegments → j0 < env.crossSegments →
        ((((generateIndices env.axisSegments env.crossSegments).drop
              (i0 * (env.crossSegments * 6))).take (env.crossSegments * 6)).drop
              (j0 * 6)).take 6
          = [(env.crossSegments + 1) * i0 + j0,
             (env.crossSegments + 1) * (i0 + 1) + j0,
             (env.crossSegments + 1) * i0 + (j0 + 1),
             (env.crossSegments + 1) * (i0 + 1) + j0,
             (env.crossSegments + 1) * (i0 + 1) + (j0 + 1),
             (env.crossSegments + 1) * i0 + (j0 + 1)]) := by
  set A := env.axisSegments
  set C := env.crossSegments
  refine ⟨?_, ?_, ?_, ?_⟩
  · rw [generateIndices, flatMap_range_const_length _ (C * 6) A (fun _ => ringIndices_length C _)]
    ring
  · intro ix hix
    rw [generateIndices] at hix
    rw [List.mem_flatMap] at hix
    obtain ⟨i0, hi0, hix⟩ := hix
    rw [List.mem_range] at hi0
    rw [ringIndices, List.mem_flatMap] at hix
    obtain ⟨j0, hj0, hix⟩ := hix
    rw [List.mem_range] at hj0
    have hmul : (C + 1) * (i0 + 1) ≤ (C + 1) * A :=
      Nat.mul_le_mul_left (C + 1) (by omega)
    have htop : (C + 1) * (i0 + 1) + (j0 + 1) < (A + 1) * (C + 1) := by
      have : (C + 1) * A + (C + 1) = (A + 1) * (C + 1) := by ring
      omega
    have hmono : (C + 1) * i0 ≤ (C + 1) * (i0 + 1) :=
      Nat.mul_le_mul_left (C + 1) (by omega)
    simp only [quadIndices, Nat.add_sub_cancel, List.mem_cons, List.not_mem_nil,
      or_false] at hix
    rcases hix with h | h | h | h | h | h <;> omega
  · have hinner : ∀ i, ((List.range (C + 1)).flatMap (fun j =>
        [(tubeVertex env i j).x, (tubeVertex env i j).y, (tubeVertex env i j).z])).length
          = (C + 1) * 3 :=
      fun i => flatMap_range_const_length
        (fun j => [(tubeVertex env i j).x, (tubeVertex env i j).y, (tubeVertex env i j).z])
        3 (C + 1) (fun _ => rfl)
    rw [tubeVerticesBuffer, flatMap_range_const_length _ ((C + 1) * 3) (A + 1) hinner]
    ring
  · intro i0 j0 hi0 hj0
    rw [generateIndices,
      flatMap_range_extract _ (C * 6) A i0 (fun _ => ringIndices_length C _) hi0,
      ringIndices,
      flatMap_range_extract (fun j1 => quadIndices C (i0 + 1) (j1 + 1)) 6 C j0
        (fun _ => rfl) hj0]
    simp [quadIndices]

/-- Witness for C2 at the sample environment (1 axis segment, 3 cross
segments). -/
theorem c2_index_topology_witness :
    (1 ≤ envSample.axisSegments ∧ 3 ≤ envSample.crossSegments)
    ∧ ((generateIndices envSample.axisSegments envSample.crossSegments).length
          = 2 * envSample.axisSegments * envSample.crossSegments * 3
        ∧ (∀ ix ∈ generateIndices envSample.axisSegments envSample.crossSegments,
            ix < (envSample.axisSegments + 1) * (envSample.crossSegments + 1))) := by
  have h := c2_index_topology envSample (Nat.le_refl 1) (Nat.le_refl 3)
  exact ⟨⟨Nat.le_refl 1, Nat.le_refl 3⟩, h.1, h.2.1⟩

/-! ## C10: addCpToFirst / addCpToLast boundary behaviour -/

/-- C10.  On an empty curve, `addCpToFirst` and `addCpToLast` insert one
freshly constructed default control point; on a non-empty curve they insert
a clone of the current first (respectively last) control point, so the two
boundary control points are equal afterwards. -/
theorem c10_add_cp_boundary (c : ControlPoint2) (rest : List ControlPoint2)
    (curves : List Bez2) :
    (Curve2Edit.addCpToFirst ⟨c :: rest, curves⟩).cps = c :: c :: rest
    ∧ (Curve2Edit.addCpToFirst ⟨[], curves⟩).cps = [ControlPoint2.defaultCp]
    ∧ (Curve2Edit.addCpToLast ⟨rest ++ [c], curves⟩).cps = rest ++ [c, c]
    ∧ (Curve2Edit.addCpToLast ⟨[], curves⟩).cps = [ControlPoint2.defaultCp] := by
  refine ⟨?_, ?_, ?_, ?_⟩
  · simp [Curve2Edit.addCpToFirst]
  · simp [Curve2Edit.addCpToFirst]
  · simp [Curve2Edit.addCpToLast, List.getLastD_concat]
  · simp [Curve2Edit.addCpToLast]

/-! ## C8: the constructor's effect on its parameter objects -/

/-- C8 counterexample.  Constructing a tube geometry does modify one of its
input parameter objects: the cross curve's `getTangentAt` method is replaced
with a wrapper whose observable result differs (a `Vector3` instead of a
`Vector2`) — here at `u = 0` on a concrete cross curve. -/
theorem c8_cross_mutated_counterexample :
    (overrideGetTangentAt crossObjSample).getTangentAt 0
      ≠ crossObjSample.getTangentAt 0 := by
  simp [overrideGetTangentAt, crossObjSample]

/-- C8 amended.  The constructor leaves the axis curve and the six
modulation curves untouched and changes nothing of the cross curve except
its `getTangentAt` method, which it overwrites with the wrapper
`u ↦ Vector3(getTangent(getUtoTmapping(u)), 0)`. -/
theorem c8_constructor_effect (a : TubeCtorArgs) :
    (tubeCtorEffect a).axis = a.axis
    ∧ (tubeCtorEffect a).scaleC = a.scaleC
    ∧ (tubeCtorEffect a).xScaleC = a.xScaleC
    ∧ (tubeCtorEffect a).yScaleC = a.yScaleC
    ∧ (tubeCtorEffect a).xCurvatureC = a.xCurvatureC
    ∧ (tubeCtorEffect a).yCurvatureC = a.yCurvatureC
    ∧ (tubeCtorEffect a).tiltC = a.tiltC
    ∧ (tubeCtorEffect a).cross.getUtoTmapping = a.cross.getUtoTmapping
    ∧ (tubeCtorEffect a).cross.getTangent = a.cross.getTangent
    ∧ (tubeCtorEffect a).cross.getTangentAt
        = fun u => TangentValue.vec3 (a.cross.getTangent (a.cross.getUtoTmapping u)).x
            (a.cross.getTangent (a.cross.getUtoTmapping u)).y 0 :=
  ⟨rfl, rfl, rfl, rfl, rfl, rfl, rfl, rfl, rfl, rfl⟩

/-! ## C7: the segment-list invariant and its degenerate failure -/

/-- C7.  Evaluation at the failing input: `addCp(0, cp)` on an empty curve.
The guard accepts index 0 (the valid insertion range of an empty list is
`[0, 0]`), but the regeneration branch calls `createCurve(0)` on the
resulting singleton list, which is invalid and yields `undefined`; the
splice inserts it anyway.  The state ends with one control point and a
segment list `[undefined]` of length 1, violating the claimed invariant
`curves.length = max 0 (N - 1) = 0`. -/
theorem c7_addCp_on_empty_breaks_invariant :
    ((Curve2Seg.init []).addCp 0 ControlPoint2.defaultCp).cps.length = 1
    ∧ ((Curve2Seg.init []).addCp 0 ControlPoint2.defaultCp).curves = [none]
    ∧ ((Curve2Seg.init []).addCp 0 ControlPoint2.defaultCp).curves.length
        ≠ max 0 (((Curve2Seg.init []).addCp 0 ControlPoint2.defaultCp).cps.length - 1) := by
  have hcc : createCurve [ControlPoint2.defaultCp] 0 = none := by
    simp [createCurve, isInvalidIndex2]
  refine ⟨?_, ?_, ?_⟩
  · simp [Curve2Seg.init, Curve2Seg.addCp, isInvalidIndex2, qIdx]
  · simp [Curve2Seg.init, Curve2Seg.addCp, isInvalidIndex2, qIdx, fillAllCurves,
      listSplice, hcc]
  · simp [Curve2Seg.init, Curve2Seg.addCp, isInvalidIndex2, qIdx, fillAllCurves,
      listSplice, hcc]

/-! ## C9: invalid structural indices are complete no-ops -/

theorem isInvalidIndex2_of_invalid (q : ℚ) (m : ℤ)
    (h : q.den ≠ 1 ∨ q < 0 ∨ (m : ℚ) < q) : isInvalidIndex2 q m = true := by
  rcases h with h | h | h <;>
    simp [isInvalidIndex2, h, bne_iff_ne, decide_eq_true_iff]

theorem isInvalidIndex3_of_invalid (q : ℚ) (lo hi : ℤ)
    (h : q.den ≠ 1 ∨ q < (lo : ℚ) ∨ (hi : ℚ) < q) : isInvalidIndex3 q lo hi = true := by
  rcases h with h | h | h <;>
    simp [isInvalidIndex3, h, bne_iff_ne, decide_eq_true_iff]

/-- C9.  For every curve state (in both revisions of Curve2) and every
structurally invalid index — not an integer, negative, or past the end of
the control-point list — each mutation operation (`addCp`, `removeCp`,
`updateCp`, `interpolateCp`) leaves the state, hence both the control-point
list and the derived segment list, exactly as it was.  (The accompanying
console.error report is I/O and outside the embedding.) -/
theorem c9_invalid_index_noop (st2 : Curve2Seg) (st3 : Curve2Edit) (index : ℚ)
    (cp : ControlPoint2)
    (h : index.den ≠ 1 ∨ index < 0
        ∨ ((st2.cps.length : ℚ) < index ∧ (st3.cps.length : ℚ) < index)) :
    st2.addCp index cp = st2
    ∧ st2.removeCp index = st2
    ∧ st2.updateCp index cp = st2
    ∧ st3.interpolateCp index = st3
    ∧ st3.removeCp index = st3 := by
  have h2 : ∀ m : ℤ, m ≤ (st2.cps.length : ℤ) →
      isInvalidIndex2 index m = true := by
    intro m hm
    apply isInvalidIndex2_of_invalid
    rcases h with h | h | h
    · exact Or.inl h
    · exact Or.inr (Or.inl h)
    · refine Or.inr (Or.inr ?_)
      have : (m : ℚ) ≤ (st2.cps.length : ℚ) := by exact_mod_cast hm
      linarith [h.1]
  have h3 : ∀ lo hi : ℤ, 0 ≤ lo → hi ≤ (st3.cps.length : ℤ) →
      isInvalidIndex3 index lo hi = true := by
    intro lo hi hlo hhi
    apply isInvalidIndex3_of_invalid
    rcases h with h | h | h
    · exact Or.inl h
    · refine Or.inr (Or.inl ?_)
      have : (0 : ℚ) ≤ (lo : ℚ) := by exact_mod_cast hlo
      linarith
    · refine Or.inr (Or.inr ?_)
      have : (hi : ℚ) ≤ (st3.cps.length : ℚ) := by exact_mod_cast hhi
      linarith [h.2]
  refine ⟨?_, ?_, ?_, ?_, ?_⟩
  · rw [Curve2Seg.addCp, h2 (st2.cps.length : ℤ) (by omega)]
    rfl
  · rw [Curve2Seg.removeCp, h2 ((st2.cps.length : ℤ) - 1) (by omega)]
    rfl
  · rw [Curve2Seg.updateCp, h2 ((st2.cps.length : ℤ) - 1) (by omega)]
    rfl
  · rw [Curve2Edit.interpolateCp, h3 1 ((st3.cps.length : ℤ) - 1) (by omega) (by omega)]
    rfl
  · rw [Curve2Edit.removeCp, h3 0 ((st3.cps.length : ℤ) - 1) (by omega) (by omega)]
    rfl

/-- Witness for C9: a negative index on concrete one-point curves. -/
theorem c9_invalid_index_noop_witness :
    ((-1 : ℚ).den ≠ 1 ∨ (-1 : ℚ) < 0
        ∨ (((Curve2Seg.init [ControlPoint2.defaultCp]).cps.length : ℚ) < (-1 : ℚ)
            ∧ (((⟨[ControlPoint2.defaultCp], []⟩ : Curve2Edit)).cps.length : ℚ) < (-1 : ℚ)))
    ∧ ((Curve2Seg.init [ControlPoint2.defaultCp]).addCp (-1) ControlPoint2.defaultCp
          = Curve2Seg.init [ControlPoint2.defaultCp]
        ∧ (Curve2Seg.init [ControlPoint2.defaultCp]).removeCp (-1)
          = Curve2Seg.init [ControlPoint2.defaultCp]
        ∧ (Curve2Seg.init [ControlPoint2.defaultCp]).updateCp (-1) ControlPoint2.defaultCp
          = Curve2Seg.init [ControlPoint2.defaultCp]
        ∧ (⟨[ControlPoint2.defaultCp], []⟩ : Curve2Edit).interpolateCp (-1)
          = (⟨[ControlPoint2.defaultCp], []⟩ : Curve2Edit)
        ∧ (⟨[ControlPoint2.defaultCp], []⟩ : Curve2Edit).removeCp (-1)
          = (⟨[ControlPoint2.defaultCp], []⟩ : Curve2Edit)) :=
  ⟨Or.inr (Or.inl (by norm_num)),
   c9_invalid_index_noop (Curve2Seg.init [ControlPoint2.defaultCp])
     (⟨[ControlPoint2.defaultCp], []⟩ : Curve2Edit) (-1) ControlPoint2.defaultCp
     (Or.inr (Or.inl (by norm_num)))⟩

/-! ## C4: serialisation round-trip -/

theorem fromArray_toArray3 (v : V3) : V3.fromArray v.toArray = v := rfl

theorem fromArray_toArray2 (v : V2) : V2.fromArray v.toArray = v := rfl

theorem controlPoint3_roundtrip (cp : ControlPoint3) :
    ControlPoint3.fromJSON cp.toJSON = cp := rfl

theorem controlPoint2_roundtrip (cp : ControlPoint2) :
    ControlPoint2.fromJSON cp.toJSON = cp := rfl

theorem curve3_roundtrip (cps : List ControlPoint3) :
    curve3FromJSON (curve3ToJSON cps) = cps := by
  rw [curve3ToJSON, curve3FromJSON, List.map_map]
  simp [Function.comp_def, controlPoint3_roundtrip]

theorem curve2_roundtrip (cps : List ControlPoint2) :
    curve2FromJSON (curve2ToJSON cps) = cps := by
  rw [curve2ToJSON, curve2FromJSON, List.map_map]
  simp [Function.comp_def, controlPoint2_roundtrip]

/-- C4.  Deserialising the serialisation of any Tube parameter set
reproduces it exactly (so in particular within any floating-point
tolerance): every stored field of every control point of the axis curve,
the cross-section curve and all six modulation curves (positions, vectors,
spherical/polar forms, angle forms, sync flags), all scalar multipliers,
both segment counts and the curvatureOrder flag are recovered. -/
theorem c4_tube_serialisation_roundtrip (p : TubeParams) :
    tubeFromJSON (tubeToJSON p) = p := by
  cases p
  simp [tubeToJSON, tubeFromJSON, curve3_roundtrip, curve2_roundtrip]

/-! ## C5: the up/down synchronisation invariant of ControlPoint3 -/

theorem neg_mk3 (a b c : ℝ) : -(V3.mk a b c) = ⟨-a, -b, -c⟩ := rfl

theorem sub_mk3 (a b c d e f : ℝ) :
    (V3.mk a b c) - (V3.mk d e f) = ⟨a - d, b - e, c - f⟩ := rfl

theorem add_mk3 (a b c d e f : ℝ) :
    (V3.mk a b c) + (V3.mk d e f) = ⟨a + d, b + e, c + f⟩ := rfl

/-- Mirroring a spherical form (same radius, `phi ↦ π - phi`,
`theta ↦ rotatePI theta`) negates the reconstructed vector. -/
theorem vecSetFromSpherical_mirror (s : SphR) :
    vecSetFromSpherical ⟨s.radius, reverseInPI s.phi, rotatePI s.theta⟩
      = -(vecSetFromSpherical s) := by
  obtain ⟨r, phi, theta⟩ := s
  have hs : Real.sin (rotatePI theta) = -Real.sin theta := by
    rw [rotatePI]
    split
    · exact Real.sin_add_pi theta
    · exact Real.sin_sub_pi theta
  have hc : Real.cos (rotatePI theta) = -Real.cos theta := by
    rw [rotatePI]
    split
    · exact Real.cos_add_pi theta
    · exact Real.cos_sub_pi theta
  simp only [vecSetFromSpherical, reverseInPI, Real.sin_pi_sub, Real.cos_pi_sub, hs, hc,
    neg_mk3]
  refine V3.ext ?_ ?_ ?_ <;> ring

/-- Reconstructing a vector from its three.js spherical form is exact. -/
theorem vecSetFromSpherical_setFromVector3 (v : V3) :
    vecSetFromSpherical (sphSetFromVector3 v) = v := by
  obtain ⟨x, y, z⟩ := v
  simp only [sphSetFromVector3]
  by_cases hr : Real.sqrt (x ^ 2 + y ^ 2 + z ^ 2) = 0
  · have hsum : x ^ 2 + y ^ 2 + z ^ 2 = 0 :=
      (Real.sqrt_eq_zero (by positivity)).mp hr
    have hx : x = 0 := by nlinarith
    have hy : y = 0 := by nlinarith
    have hz : z = 0 := by nlinarith
    rw [if_pos hr]
    simp [vecSetFromSpherical, hr, hx, hy, hz]
  · rw [if_neg hr]
    set r := Real.sqrt (x ^ 2 + y ^ 2 + z ^ 2) with hrdef
    have hrpos : 0 < r := lt_of_le_of_ne (Real.sqrt_nonneg _) (Ne.symm hr)
    have hr2 : r ^ 2 = x ^ 2 + y ^ 2 + z ^ 2 := Real.sq_sqrt (by positivity)
    have hyle : |y| ≤ r := by
      rw [← Real.sqrt_sq_eq_abs, hrdef]
      apply Real.sqrt_le_sqrt
      nlinarith
    have hyb := abs_le.mp hyle
    have hb1 : -1 ≤ y / r := by
      rw [le_div_iff₀ hrpos]
      linarith [hyb.1]
    have hb2 : y / r ≤ 1 := by
      rw [div_le_one hrpos]
      exact hyb.2
    have hclamp : clampJS (y / r) (-1) 1 = y / r := by
      rw [clampJS, min_eq_right hb2, max_eq_right hb1]
    set s := Real.sqrt (x ^ 2 + z ^ 2) with hsdef
    have hsin : Real.sin (Real.arccos (y / r)) * r = s := by
      rw [Real.sin_arccos]
      have h1 : 1 - (y / r) ^ 2 = (x ^ 2 + z ^ 2) / r ^ 2 := by
        field_simp
        nlinarith
      rw [h1, Real.sqrt_div (by positivity), Real.sqrt_sq hrpos.le, hsdef]
      field_simp
    have habs : Complex.abs ⟨z, x⟩ = s := by
      rw [Complex.abs_apply, Complex.normSq_mk, hsdef]
      ring_nf
    simp only [vecSetFromSpherical, hclamp]
    refine V3.ext ?_ ?_ ?_
    · show Real.sin (Real.arccos (y / r)) * r * Real.sin (atan2JS x z) = x
      rw [hsin, atan2JS, Complex.sin_arg]
      simp only [habs]
      by_cases hs : s = 0
      · have hxz : x ^ 2 + z ^ 2 = 0 := (Real.sqrt_eq_zero (by positivity)).mp hs
        have hx : x = 0 := by nlinarith
        simp [hs, hx]
      · field_simp
    · show Real.cos (Real.arccos (y / r)) * r = y
      rw [Real.cos_arccos hb1 hb2]
      field_simp
    · show Real.sin (Real.arccos (y / r)) * r * Real.cos (atan2JS x z) = z
      rw [hsin, atan2JS]
      by_cases hs : s = 0
      · have hxz : x ^ 2 + z ^ 2 = 0 := (Real.sqrt_eq_zero (by positivity)).mp hs
        have hz : z = 0 := by nlinarith
        simp [hs, hz]
      · have hzx : (⟨z, x⟩ : ℂ) ≠ 0 := by
          intro hzero
          apply hs
          rw [← habs, hzero]
          simp
        rw [Complex.cos_arg hzx]
        simp only [habs]
        field_simp

theorem syncUpToDown_both_flags (cp : ControlPoint3)
    (hR : cp.isSyncRadius = true) (hA : cp.isSyncAngle = true) :
    cp.syncUpToDown =
      { cp with
        downS := ⟨cp.upS.radius, reverseInPI cp.upS.phi, rotatePI cp.upS.theta⟩
        downV := vecSetFromSpherical
          ⟨cp.upS.radius, reverseInPI cp.upS.phi, rotatePI cp.upS.theta⟩
        downA := getA3 (vecSetFromSpherical
          ⟨cp.upS.radius, reverseInPI cp.upS.phi, rotatePI cp.upS.theta⟩)
        downPos := cp.middlePos + vecSetFromSpherical
          ⟨cp.upS.radius, reverseInPI cp.upS.phi, rotatePI cp.upS.theta⟩ } := by
  rw [ControlPoint3.syncUpToDown, if_neg (by simp [hR])]
  simp [hR, hA]

/-- C5.  For a ControlPoint3 with both sync flags set, after setting the up
handle through `updateFromUpPos` (and likewise through `updateFromUpS`, the
entry point of the angle routes), the down handle is the exact mirror of
the up handle in all three stored representations: `downV = -upV`,
`downPos = middlePos + downV`, the spherical form has the same radius with
`phi` reflected in π and `theta` rotated by π, and `downA` is the angle
form recomputed from `downV`. -/
theorem c5_sync_invariant (cp : ControlPoint3)
    (hR : cp.isSyncRadius = true) (hA : cp.isSyncAngle = true) :
    ((cp.updateFromUpPos).downV = -(cp.updateFromUpPos).upV
      ∧ (cp.updateFromUpPos).downPos
          = (cp.updateFromUpPos).middlePos + (cp.updateFromUpPos).downV
      ∧ (cp.updateFromUpPos).downS.radius = (cp.updateFromUpPos).upS.radius
      ∧ (cp.updateFromUpPos).downS.phi = reverseInPI (cp.updateFromUpPos).upS.phi
      ∧ (cp.updateFromUpPos).downS.theta = rotatePI (cp.updateFromUpPos).upS.theta
      ∧ (cp.updateFromUpPos).downA = getA3 (cp.updateFromUpPos).downV)
    ∧ ((cp.updateFromUpS).downV = -(cp.updateFromUpS).upV
      ∧ (cp.updateFromUpS).downPos
          = (cp.updateFromUpS).middlePos + (cp.updateFromUpS).downV
      ∧ (cp.updateFromUpS).downS.radius = (cp.updateFromUpS).upS.radius
      ∧ (cp.updateFromUpS).downS.phi = reverseInPI (cp.updateFromUpS).upS.phi
      ∧ (cp.updateFromUpS).downS.theta = rotatePI (cp.updateFromUpS).upS.theta
      ∧ (cp.updateFromUpS).downA = getA3 (cp.updateFromUpS).downV) := by
  constructor
  · have hrw := syncUpToDown_both_flags
      ⟨cp.middlePos, cp.upPos, cp.upPos - cp.middlePos,
        sphSetFromVector3 (cp.upPos - cp.middlePos), getA3 (cp.upPos - cp.middlePos),
        cp.downPos, cp.downV, cp.downS, cp.downA, cp.isSyncRadius, cp.isSyncAngle⟩ hR hA
    rw [ControlPoint3.updateFromUpPos, hrw]
    refine ⟨?_, rfl, rfl, rfl, rfl, rfl⟩
    show vecSetFromSpherical
        ⟨(sphSetFromVector3 (cp.upPos - cp.middlePos)).radius,
         reverseInPI (sphSetFromVector3 (cp.upPos - cp.middlePos)).phi,
         rotatePI (sphSetFromVector3 (cp.upPos - cp.middlePos)).theta⟩
      = -(cp.upPos - cp.middlePos)
    rw [vecSetFromSpherical_mirror, vecSetFromSpherical_setFromVector3]
  · have hrw := syncUpToDown_both_flags
      ⟨cp.middlePos, cp.middlePos + vecSetFromSpherical cp.upS, vecSetFromSpherical cp.upS,
        cp.upS, getA3 (vecSetFromSpherical cp.upS),
        cp.downPos, cp.downV, cp.downS, cp.downA, cp.isSyncRadius, cp.isSyncAngle⟩ hR hA
    rw [ControlPoint3.updateFromUpS, hrw]
    refine ⟨?_, rfl, rfl, rfl, rfl, rfl⟩
    show vecSetFromSpherical
        ⟨cp.upS.radius, reverseInPI cp.upS.phi, rotatePI cp.upS.theta⟩
      = -(vecSetFromSpherical cp.upS)
    rw [vecSetFromSpherical_mirror]

/-- Witness for C5 at a concrete control point with both flags set. -/
theorem c5_sync_invariant_witness :
    (cp3Sample.isSyncRadius = true ∧ cp3Sample.isSyncAngle = true)
    ∧ (((cp3Sample.updateFromUpPos).downV = -(cp3Sample.updateFromUpPos).upV
        ∧ (cp3Sample.updateFromUpPos).downPos
            = (cp3Sample.updateFromUpPos).middlePos + (cp3Sample.updateFromUpPos).downV
        ∧ (cp3Sample.updateFromUpPos).downS.radius = (cp3Sample.updateFromUpPos).upS.radius
        ∧ (cp3Sample.updateFromUpPos).downS.phi
            = reverseInPI (cp3Sample.updateFromUpPos).upS.phi
        ∧ (cp3Sample.updateFromUpPos).downS.theta
            = rotatePI (cp3Sample.updateFromUpPos).upS.theta
        ∧ (cp3Sample.updateFromUpPos).downA = getA3 (cp3Sample.updateFromUpPos).downV)
      ∧ ((cp3Sample.updateFromUpS).downV = -(cp3Sample.updateFromUpS).upV
        ∧ (cp3Sample.updateFromUpS).downPos
            = (cp3Sample.updateFromUpS).middlePos + (cp3Sample.updateFromUpS).downV
        ∧ (cp3Sample.updateFromUpS).downS.radius = (cp3Sample.updateFromUpS).upS.radius
        ∧ (cp3Sample.updateFromUpS).downS.phi
            = reverseInPI (cp3Sample.updateFromUpS).upS.phi
        ∧ (cp3Sample.updateFromUpS).downS.theta
            = rotatePI (cp3Sample.updateFromUpS).upS.theta
        ∧ (cp3Sample.updateFromUpS).downA = getA3 (cp3Sample.updateFromUpS).downV)) :=
  ⟨⟨rfl, rfl⟩, c5_sync_invariant cp3Sample rfl rfl⟩

/-! ## C6: interpolateCp and De Casteljau midpoint subdivision -/

theorem neg_mk2 (a b : ℝ) : -(V2.mk a b) = ⟨-a, -b⟩ := rfl

theorem sub_mk2 (a b c d : ℝ) : (V2.mk a b) - (V2.mk c d) = ⟨a - c, b - d⟩ := rfl

theorem add_mk2 (a b c d : ℝ) : (V2.mk a b) + (V2.mk c d) = ⟨a + c, b + d⟩ := rfl

theorem degToRad_radToDeg (a : ℝ) : degToRad (radToDeg a) = a := by
  rw [degToRad, radToDeg]
  field_simp

theorem cos_degToRad_rotate180 (a : ℝ) :
    Real.cos (degToRad (rotate180 a)) = -Real.cos (degToRad a) := by
  rw [rotate180]
  split
  · have : degToRad (a + 180) = degToRad a + Real.pi := by
      rw [degToRad, degToRad]
      field_simp
      ring
    rw [this, Real.cos_add_pi]
  · have : degToRad (a - 180) = degToRad a - Real.pi := by
      rw [degToRad, degToRad]
      field_simp
      ring
    rw [this, Real.cos_sub_pi]

theorem sin_degToRad_rotate180 (a : ℝ) :
    Real.sin (degToRad (rotate180 a)) = -Real.sin (degToRad a) := by
  rw [rotate180]
  split
  · have : degToRad (a + 180) = degToRad a + Real.pi := by
      rw [degToRad, degToRad]
      field_simp
      ring
    rw [this, Real.sin_add_pi]
  · have : degToRad (a - 180) = degToRad a - Real.pi := by
      rw [degToRad, degToRad]
      field_simp
      ring
    rw [this, Real.sin_sub_pi]

/-- Reconstructing a 2D vector from its Circular polar form is exact. -/
theorem circ_recon (v : V2) :
    (⟨(circSetFromVector2 v).xval, (circSetFromVector2 v).yval⟩ : V2) = v := by
  obtain ⟨x, y⟩ := v
  simp only [circSetFromVector2, CircR.xval, CircR.yval, degToRad_radToDeg]
  by_cases hr : Real.sqrt (x ^ 2 + y ^ 2) = 0
  · have hsum : x ^ 2 + y ^ 2 = 0 := (Real.sqrt_eq_zero (by positivity)).mp hr
    have hx : x = 0 := by nlinarith
    have hy : y = 0 := by nlinarith
    rw [hr]
    refine V2.ext ?_ ?_ <;> simp [hx, hy]
  · have hvz : (⟨-x, -y⟩ : ℂ) ≠ 0 := by
      intro hc
      apply hr
      have hx : x = 0 := by simpa using congrArg Complex.re hc
      have hy : y = 0 := by simpa using congrArg Complex.im hc
      simp [hx, hy]
    set r := Real.sqrt (x ^ 2 + y ^ 2) with hrdef
    have habs : Complex.abs ⟨-x, -y⟩ = r := by
      rw [Complex.abs_apply, Complex.normSq_mk, hrdef]
      ring_nf
    refine V2.ext ?_ ?_
    · show r * Real.cos (atan2JS (-y) (-x) + Real.pi) = x
      rw [atan2JS, Real.cos_add_pi, Complex.cos_arg hvz, habs]
      field_simp
    · show r * Real.sin (atan2JS (-y) (-x) + Real.pi) = y
      rw [atan2JS, Real.sin_add_pi, Complex.sin_arg]
      simp only [habs]
      field_simp

/-- Mirroring the Circular form of a vector (same radius, angle rotated
180°) reconstructs the negated vector. -/
theorem circ_mirror (v : V2) :
    (⟨CircR.xval ⟨(circSetFromVector2 v).radius, rotate180 (circSetFromVector2 v).angle⟩,
      CircR.yval ⟨(circSetFromVector2 v).radius, rotate180 (circSetFromVector2 v).angle⟩⟩ : V2)
      = -v := by
  have h := circ_recon v
  refine V2.ext ?_ ?_
  · show (circSetFromVector2 v).radius
        * Real.cos (degToRad (rotate180 (circSetFromVector2 v).angle)) = (-v).x
    rw [cos_degToRad_rotate180]
    have hx := congrArg V2.x h
    simp only [CircR.xval] at hx
    rw [mul_neg, hx]
    rfl
  · show (circSetFromVector2 v).radius
        * Real.sin (degToRad (rotate180 (circSetFromVector2 v).angle)) = (-v).y
    rw [sin_degToRad_rotate180]
    have hy := congrArg V2.y h
    simp only [CircR.yval] at hy
    rw [mul_neg, hy]
    rfl

theorem updateFromRightPos_keeps_right (cp : ControlPoint2) :
    (cp.updateFromRightPos).rightPos = cp.rightPos
    ∧ (cp.updateFromRightPos).middlePos = cp.middlePos
    ∧ (cp.updateFromRightPos).isSyncRadius = cp.isSyncRadius
    ∧ (cp.updateFromRightPos).isSyncAngle = cp.isSyncAngle := by
  rw [ControlPoint2.updateFromRightPos, ControlPoint2.syncRightToLeft]
  split <;> exact ⟨rfl, rfl, rfl, rfl⟩

theorem updateFromLeftPos_keeps_left (cp : ControlPoint2) :
    (cp.updateFromLeftPos).leftPos = cp.leftPos
    ∧ (cp.updateFromLeftPos).middlePos = cp.middlePos
    ∧ (cp.updateFromLeftPos).isSyncRadius = cp.isSyncRadius
    ∧ (cp.updateFromLeftPos).isSyncAngle = cp.isSyncAngle := by
  rw [ControlPoint2.updateFromLeftPos, ControlPoint2.syncLeftToRight]
  split <;> exact ⟨rfl, rfl, rfl, rfl⟩

theorem updateFromLeftPos_tt (cp : ControlPoint2)
    (hR : cp.isSyncRadius = true) (hA : cp.isSyncAngle = true) :
    cp.updateFromLeftPos =
      { cp with
        leftV := cp.leftPos - cp.middlePos
        leftC := circSetFromVector2 (cp.leftPos - cp.middlePos)
        rightC := ⟨(circSetFromVector2 (cp.leftPos - cp.middlePos)).radius,
                   rotate180 (circSetFromVector2 (cp.leftPos - cp.middlePos)).angle⟩
        rightV := -(cp.leftPos - cp.middlePos)
        rightPos := cp.middlePos + -(cp.leftPos - cp.middlePos) } := by
  rw [ControlPoint2.updateFromLeftPos, ControlPoint2.syncLeftToRight]
  rw [if_neg (by simp [hR])]
  simp only [hR, hA, if_true]
  rw [circ_mirror (cp.leftPos - cp.middlePos)]

theorem updateFromRightPos_tt (cp : ControlPoint2)
    (hR : cp.isSyncRadius = true) (hA : cp.isSyncAngle = true) :
    cp.updateFromRightPos =
      { cp with
        rightV := cp.rightPos - cp.middlePos
        rightC := circSetFromVector2 (cp.rightPos - cp.middlePos)
        leftC := ⟨(circSetFromVector2 (cp.rightPos - cp.middlePos)).radius,
                  rotate180 (circSetFromVector2 (cp.rightPos - cp.middlePos)).angle⟩
        leftV := -(cp.rightPos - cp.middlePos)
        leftPos := cp.middlePos + -(cp.rightPos - cp.middlePos) } := by
  rw [ControlPoint2.updateFromRightPos, ControlPoint2.syncRightToLeft]
  rw [if_neg (by simp [hR])]
  simp only [hR, hA, if_true]
  rw [circ_mirror (cp.rightPos - cp.middlePos)]

theorem updateFromLeftPos_ff (cp : ControlPoint2)
    (hR : cp.isSyncRadius = false) (hA : cp.isSyncAngle = false) :
    cp.updateFromLeftPos =
      { cp with
        leftV := cp.leftPos - cp.middlePos
        leftC := circSetFromVector2 (cp.leftPos - cp.middlePos) } := by
  rw [ControlPoint2.updateFromLeftPos, ControlPoint2.syncLeftToRight]
  rw [if_pos ⟨hR, hA⟩]

theorem updateFromRightPos_ff (cp : ControlPoint2)
    (hR : cp.isSyncRadius = false) (hA : cp.isSyncAngle = false) :
    cp.updateFromRightPos =
      { cp with
        rightV := cp.rightPos - cp.middlePos
        rightC := circSetFromVector2 (cp.rightPos - cp.middlePos) } := by
  rw [ControlPoint2.updateFromRightPos, ControlPoint2.syncRightToLeft]
  rw [if_pos ⟨hR, hA⟩]

/-- When a control point's anchor is exactly the midpoint of its two handle
positions and its two sync flags are equal, running `updateFromLeftPos` then
`updateFromRightPos` (as interpolateCp does on the freshly inserted point)
leaves all three positions unchanged. -/
theorem update_left_right_keeps_positions (cp : ControlPoint2)
    (hflag : cp.isSyncRadius = cp.isSyncAngle)
    (hmid : cp.middlePos = (cp.leftPos + cp.rightPos).divScalar 2) :
    ((cp.updateFromLeftPos).updateFromRightPos).leftPos = cp.leftPos
    ∧ ((cp.updateFromLeftPos).updateFromRightPos).rightPos = cp.rightPos
    ∧ ((cp.updateFromLeftPos).updateFromRightPos).middlePos = cp.middlePos := by
  obtain ⟨M, L, lV, lC, R, rV, rC, sR, sA⟩ := cp
  obtain ⟨Mx, My⟩ := M
  obtain ⟨Lx, Ly⟩ := L
  obtain ⟨Rx, Ry⟩ := R
  cases sR
  · cases sA
    · rw [updateFromLeftPos_ff _ rfl rfl, updateFromRightPos_ff _ rfl rfl]
      exact ⟨rfl, rfl, rfl⟩
    · exact absurd hflag (by simp)
  · cases sA
    · exact absurd hflag (by simp)
    · have hmx := congrArg V2.x hmid
      have hmy := congrArg V2.y hmid
      simp only [add_mk2, V2.divScalar] at hmx hmy
      rw [updateFromLeftPos_tt _ rfl rfl]
      rw [updateFromRightPos_tt _ rfl rfl]
      refine ⟨?_, ?_, rfl⟩
      · show (⟨Mx, My⟩ : V2) + -((⟨Mx, My⟩ + -((⟨Lx, Ly⟩ : V2) - ⟨Mx, My⟩)) - ⟨Mx, My⟩)
            = ⟨Lx, Ly⟩
        simp only [sub_mk2, neg_mk2, add_mk2]
        refine V2.ext ?_ ?_ <;> dsimp <;> ring
      · show (⟨Mx, My⟩ : V2) + -((⟨Lx, Ly⟩ : V2) - ⟨Mx, My⟩) = ⟨Rx, Ry⟩
        simp only [sub_mk2, neg_mk2, add_mk2]
        refine V2.ext ?_ ?_ <;> dsimp
        · rw [hmx]; ring
        · rw [hmy]; ring

theorem getD_insertIdx_of_lt {α : Type} (l : List α) (x d : α) (n k : ℕ)
    (hn : k < n) (hnl : n ≤ l.length) (hk : k < l.length) :
    (l.insertIdx n x).getD k d = l.getD k d := by
  rw [List.getD_eq_getElem _ d (by rw [List.length_insertIdx n l hnl]; omega),
      List.getD_eq_getElem _ d hk]
  exact List.getElem_insertIdx_of_lt l x n k hn hk

theorem getD_insertIdx_self {α : Type} (l : List α) (x d : α) (n : ℕ)
    (hnl : n ≤ l.length) :
    (l.insertIdx n x).getD n d = x := by
  rw [List.getD_eq_getElem _ d (by rw [List.length_insertIdx n l hnl]; omega)]
  exact List.getElem_insertIdx_self l x n hnl

theorem getD_insertIdx_succ {α : Type} (l : List α) (x d : α) (n : ℕ)
    (hnl : n < l.length) :
    (l.insertIdx n x).getD (n + 1) d = l.getD n d := by
  rw [List.getD_eq_getElem _ d (by rw [List.length_insertIdx n l (by omega)]; omega),
      List.getD_eq_getElem _ d hnl]
  simpa using List.getElem_insertIdx_add_succ l x n 0 (by omega)

theorem getD_set_self {α : Type} (l : List α) (a d : α) (i : ℕ) (h : i < l.length) :
    (l.set i a).getD i d = a := by
  rw [List.getD_eq_getElem _ d (by simpa using h)]
  simp

theorem getD_set_ne {α : Type} (l : List α) (a d : α) (i j : ℕ) (hij : i ≠ j)
    (hj : j < l.length) :
    (l.set i a).getD j d = l.getD j d := by
  rw [List.getD_eq_getElem _ d (by simpa using hj), List.getD_eq_getElem _ d hj]
  exact List.getElem_set_ne hij _
theorem interpolateCp_valid_eq (cps : List ControlPoint2) (curves : List Bez2) (i : ℕ)
    (h1 : 1 ≤ i) (h2 : i + 1 ≤ cps.length) :
    Curve2Edit.interpolateCp ⟨cps, curves⟩ (i : ℚ)
      = ⟨(((cps.insertIdx i (cps.getD i ControlPoint2.defaultCp)).set (i - 1)
            ((⟨(cps.getD (i - 1) ControlPoint2.defaultCp).middlePos,
               (cps.getD (i - 1) ControlPoint2.defaultCp).leftPos,
               (cps.getD (i - 1) ControlPoint2.defaultCp).leftV,
               (cps.getD (i - 1) ControlPoint2.defaultCp).leftC,
               ((cps.getD (i - 1) ControlPoint2.defaultCp).middlePos
                 + (cps.getD (i - 1) ControlPoint2.defaultCp).rightPos).divScalar 2,
               (cps.getD (i - 1) ControlPoint2.defaultCp).rightV,
               (cps.getD (i - 1) ControlPoint2.defaultCp).rightC,
               (cps.getD (i - 1) ControlPoint2.defaultCp).isSyncRadius,
               (cps.getD (i - 1) ControlPoint2.defaultCp).isSyncAngle⟩
              : ControlPoint2).updateFromRightPos)).set i
            (((⟨((((cps.getD (i - 1) ControlPoint2.defaultCp).middlePos
                   + (cps.getD (i - 1) ControlPoint2.defaultCp).rightPos).divScalar 2
                 + ((cps.getD (i - 1) ControlPoint2.defaultCp).rightPos
                   + (cps.getD i ControlPoint2.defaultCp).leftPos).divScalar 2).divScalar 2
                + (((cps.getD (i - 1) ControlPoint2.defaultCp).rightPos
                   + (cps.getD i ControlPoint2.defaultCp).leftPos).divScalar 2
                 + ((cps.getD i ControlPoint2.defaultCp).leftPos
                   + (cps.getD i ControlPoint2.defaultCp).middlePos).divScalar 2).divScalar 2).divScalar 2,
               (((cps.getD (i - 1) ControlPoint2.defaultCp).middlePos
                 + (cps.getD (i - 1) ControlPoint2.defaultCp).rightPos).divScalar 2
                + ((cps.getD (i - 1) ControlPoint2.defaultCp).rightPos
                  + (cps.getD i ControlPoint2.defaultCp).leftPos).divScalar 2).divScalar 2,
               (cps.getD i ControlPoint2.defaultCp).leftV,
               (cps.getD i ControlPoint2.defaultCp).leftC,
               (((cps.getD (i - 1) ControlPoint2.defaultCp).rightPos
                 + (cps.getD i ControlPoint2.defaultCp).leftPos).divScalar 2
                + ((cps.getD i ControlPoint2.defaultCp).leftPos
                  + (cps.getD i ControlPoint2.defaultCp).middlePos).divScalar 2).divScalar 2,
               (cps.getD i ControlPoint2.defaultCp).rightV,
               (cps.getD i ControlPoint2.defaultCp).rightC,
               (cps.getD i ControlPoint2.defaultCp).isSyncRadius,
               (cps.getD i ControlPoint2.defaultCp).isSyncAngle⟩
              : ControlPoint2).updateFromLeftPos).updateFromRightPos)).set (i + 1)
            ((⟨(cps.getD i ControlPoint2.defaultCp).middlePos,
               ((cps.getD i ControlPoint2.defaultCp).leftPos
                 + (cps.getD i ControlPoint2.defaultCp).middlePos).divScalar 2,
               (cps.getD i ControlPoint2.defaultCp).leftV,
               (cps.getD i ControlPoint2.defaultCp).leftC,
               (cps.getD i ControlPoint2.defaultCp).rightPos,
               (cps.getD i ControlPoint2.defaultCp).rightV,
               (cps.getD i ControlPoint2.defaultCp).rightC,
               (cps.getD i ControlPoint2.defaultCp).isSyncRadius,
               (cps.getD i ControlPoint2.defaultCp).isSyncAngle⟩
              : ControlPoint2).updateFromLeftPos), curves⟩ := by
  have hq1 : ((1 : ℤ) : ℚ) ≤ (i : ℚ) := by
    push_cast
    exact_mod_cast h1
  have hq2 : (i : ℚ) ≤ (((cps.length : ℤ) - 1 : ℤ) : ℚ) := by
    push_cast
    have : ((i : ℚ)) + 1 ≤ (cps.length : ℚ) := by exact_mod_cast h2
    linarith
  have hguard : isInvalidIndex3 (i : ℚ) 1 ((cps.length : ℤ) - 1) = false := by
    simp only [isInvalidIndex3, Bool.or_eq_false_iff, bne_eq_false_iff_eq,
      decide_eq_false_iff_not, not_lt]
    exact ⟨⟨Rat.den_natCast i, hq1⟩, hq2⟩
  have hqidx : qIdx (i : ℚ) = i := by
    simp [qIdx]
  have hg1 : (cps.insertIdx i (cps.getD i ControlPoint2.defaultCp)).getD (i - 1)
      ControlPoint2.defaultCp = cps.getD (i - 1) ControlPoint2.defaultCp :=
    getD_insertIdx_of_lt cps _ _ i (i - 1) (by omega) (by omega) (by omega)
  have hg2 : (cps.insertIdx i (cps.getD i ControlPoint2.defaultCp)).getD i
      ControlPoint2.defaultCp = cps.getD i ControlPoint2.defaultCp :=
    getD_insertIdx_self cps _ _ i (by omega)
  have hg3 : (cps.insertIdx i (cps.getD i ControlPoint2.defaultCp)).getD (i + 1)
      ControlPoint2.defaultCp = cps.getD i ControlPoint2.defaultCp :=
    getD_insertIdx_succ cps _ _ i (by omega)
  simp only [Curve2Edit.interpolateCp, hguard, Bool.false_eq_true, if_false, hqidx,
    hg1, hg2, hg3]


theorem updateFromRightPos_rightPos (cp : ControlPoint2) :
    (cp.updateFromRightPos).rightPos = cp.rightPos :=
  (updateFromRightPos_keeps_right cp).1

theorem updateFromLeftPos_leftPos (cp : ControlPoint2) :
    (cp.updateFromLeftPos).leftPos = cp.leftPos :=
  (updateFromLeftPos_keeps_left cp).1

theorem interp_mid_roundtrip (Lp Rp lV rV : V2) (lC rC : CircR) (sR sA : Bool)
    (hflag : sR = sA) :
    (((⟨(Lp + Rp).divScalar 2, Lp, lV, lC, Rp, rV, rC, sR, sA⟩ :
        ControlPoint2).updateFromLeftPos).updateFromRightPos).leftPos = Lp
    ∧ (((⟨(Lp + Rp).divScalar 2, Lp, lV, lC, Rp, rV, rC, sR, sA⟩ :
        ControlPoint2).updateFromLeftPos).updateFromRightPos).rightPos = Rp
    ∧ (((⟨(Lp + Rp).divScalar 2, Lp, lV, lC, Rp, rV, rC, sR, sA⟩ :
        ControlPoint2).updateFromLeftPos).updateFromRightPos).middlePos
        = (Lp + Rp).divScalar 2 :=
  update_left_right_keeps_positions
    ⟨(Lp + Rp).divScalar 2, Lp, lV, lC, Rp, rV, rC, sR, sA⟩ hflag rfl

/-- C6 amended.  For every curve with at least 2 control points and every
valid interior index `i` such that the control point at `i` (whose clone
becomes the new point) has its two sync flags equal (both set — the
constructor default — or both clear), `interpolateCp i` performs exact
De Casteljau subdivision at `t = 1/2`: with `Q0 = (cp1.middlePos +
cp1.rightPos)/2`, `Q1 = (cp1.rightPos + cp3.leftPos)/2`, `Q2 = (cp3.leftPos
+ cp3.middlePos)/2` computed from the old neighbours, the curve gains one
point, the neighbours' facing handles become `Q0` and `Q2`, and the new
point's handles and anchor are `(Q0+Q1)/2`, `(Q1+Q2)/2` and their midpoint.
(With exactly one sync flag set the new point's right handle is instead
rebuilt from stale polar data and generally differs — see the
counterexample.) -/
theorem c6_interpolate_subdivision (st : Curve2Edit) (i : ℕ)
    (h1 : 1 ≤ i) (h2 : i + 1 ≤ st.cps.length)
    (hflag : (st.cps.getD i ControlPoint2.defaultCp).isSyncRadius
        = (st.cps.getD i ControlPoint2.defaultCp).isSyncAngle) :
    (st.interpolateCp (i : ℚ)).cps.length = st.cps.length + 1
    ∧ ((st.interpolateCp (i : ℚ)).cps.getD (i - 1) ControlPoint2.defaultCp).rightPos
        = ((st.cps.getD (i - 1) ControlPoint2.defaultCp).middlePos
            + (st.cps.getD (i - 1) ControlPoint2.defaultCp).rightPos).divScalar 2
    ∧ ((st.interpolateCp (i : ℚ)).cps.getD (i + 1) ControlPoint2.defaultCp).leftPos
        = ((st.cps.getD i ControlPoint2.defaultCp).leftPos
            + (st.cps.getD i ControlPoint2.defaultCp).middlePos).divScalar 2
    ∧ ((st.interpolateCp (i : ℚ)).cps.getD i ControlPoint2.defaultCp).leftPos
        = (((st.cps.getD (i - 1) ControlPoint2.defaultCp).middlePos
            + (st.cps.getD (i - 1) ControlPoint2.defaultCp).rightPos).divScalar 2
          + ((st.cps.getD (i - 1) ControlPoint2.defaultCp).rightPos
            + (st.cps.getD i ControlPoint2.defaultCp).leftPos).divScalar 2).divScalar 2
    ∧ ((st.interpolateCp (i : ℚ)).cps.getD i ControlPoint2.defaultCp).rightPos
        = (((st.cps.getD (i - 1) ControlPoint2.defaultCp).rightPos
            + (st.cps.getD i ControlPoint2.defaultCp).leftPos).divScalar 2
          + ((st.cps.getD i ControlPoint2.defaultCp).leftPos
            + (st.cps.getD i ControlPoint2.defaultCp).middlePos).divScalar 2).divScalar 2
    ∧ ((st.interpolateCp (i : ℚ)).cps.getD i ControlPoint2.defaultCp).middlePos
        = ((((st.cps.getD (i - 1) ControlPoint2.defaultCp).middlePos
            + (st.cps.getD (i - 1) ControlPoint2.defaultCp).rightPos).divScalar 2
          + ((st.cps.getD (i - 1) ControlPoint2.defaultCp).rightPos
            + (st.cps.getD i ControlPoint2.defaultCp).leftPos).divScalar 2).divScalar 2
          + (((st.cps.getD (i - 1) ControlPoint2.defaultCp).rightPos
            + (st.cps.getD i ControlPoint2.defaultCp).leftPos).divScalar 2
          + ((st.cps.getD i ControlPoint2.defaultCp).leftPos
            + (st.cps.getD i ControlPoint2.defaultCp).middlePos).divScalar 2).divScalar 2).divScalar 2 := by
  obtain ⟨cps, curves⟩ := st
  simp only at h2 hflag ⊢
  rw [interpolateCp_valid_eq cps curves i h1 h2]
  have hilen : i + 1 ≤ cps.length := h2
  have hL : (cps.insertIdx i (cps.getD i ControlPoint2.defaultCp)).length
      = cps.length + 1 := List.length_insertIdx i cps (by omega)
  refine ⟨?_, ?_, ?_, ?_, ?_, ?_⟩
  · rw [List.length_set, List.length_set, List.length_set, hL]
  · rw [getD_set_ne _ _ _ (i + 1) (i - 1) (by omega)
        (by rw [List.length_set, List.length_set, hL]; omega),
      getD_set_ne _ _ _ i (i - 1) (by omega) (by rw [List.length_set, hL]; omega),
      getD_set_self _ _ _ (i - 1) (by rw [hL]; omega),
      updateFromRightPos_rightPos]
  · rw [getD_set_self _ _ _ (i + 1) (by rw [List.length_set, List.length_set, hL]; omega),
      updateFromLeftPos_leftPos]
  · rw [getD_set_ne _ _ _ (i + 1) i (by omega)
        (by rw [List.length_set, List.length_set, hL]; omega),
      getD_set_self _ _ _ i (by rw [List.length_set, hL]; omega)]
    exact (interp_mid_roundtrip _ _ _ _ _ _ _ _ hflag).1
  · rw [getD_set_ne _ _ _ (i + 1) i (by omega)
        (by rw [List.length_set, List.length_set, hL]; omega),
      getD_set_self _ _ _ i (by rw [List.length_set, hL]; omega)]
    exact (interp_mid_roundtrip _ _ _ _ _ _ _ _ hflag).2.1
  · rw [getD_set_ne _ _ _ (i + 1) i (by omega)
        (by rw [List.length_set, List.length_set, hL]; omega),
      getD_set_self _ _ _ i (by rw [List.length_set, hL]; omega)]
    exact (interp_mid_roundtrip _ _ _ _ _ _ _ _ hflag).2.2

theorem updateFromLeftPos_tf (cp : ControlPoint2)
    (hR : cp.isSyncRadius = true) (hA : cp.isSyncAngle = false) :
    cp.updateFromLeftPos =
      { cp with
        leftV := cp.leftPos - cp.middlePos
        leftC := circSetFromVector2 (cp.leftPos - cp.middlePos)
        rightC := ⟨(circSetFromVector2 (cp.leftPos - cp.middlePos)).radius,
                   cp.rightC.angle⟩
        rightV := ⟨CircR.xval ⟨(circSetFromVector2 (cp.leftPos - cp.middlePos)).radius,
                     cp.rightC.angle⟩,
                   CircR.yval ⟨(circSetFromVector2 (cp.leftPos - cp.middlePos)).radius,
                     cp.rightC.angle⟩⟩
        rightPos := cp.middlePos
          + ⟨CircR.xval ⟨(circSetFromVector2 (cp.leftPos - cp.middlePos)).radius,
               cp.rightC.angle⟩,
             CircR.yval ⟨(circSetFromVector2 (cp.leftPos - cp.middlePos)).radius,
               cp.rightC.angle⟩⟩ } := by
  rw [ControlPoint2.updateFromLeftPos, ControlPoint2.syncLeftToRight]
  rw [if_neg (by simp [hR])]
  simp only [hR, hA, if_true, if_false, Bool.false_eq_true]

theorem V2.add_x (a b : V2) : (a + b).x = a.x + b.x := rfl

theorem V2.add_y (a b : V2) : (a + b).y = a.y + b.y := rfl

theorem V2.divScalar_x (v : V2) (s : ℝ) : (v.divScalar s).x = v.x / s := rfl

theorem V2.divScalar_y (v : V2) (s : ℝ) : (v.divScalar s).y = v.y / s := rfl

/-- C6 counterexample.  On the concrete 2-point curve whose second point has
`isSyncRadius = true` but `isSyncAngle = false`, `interpolateCp 1` does not
give the new point the De Casteljau handle `(Q1 + Q2) / 2`: the
synchronisation pass rebuilds the right handle from the clone's stale polar
angle, so its y-coordinate is the anchor's 3/4 instead of the claimed 1/2. -/
theorem c6_interpolate_counterexample :
    ((curveInterpCex.interpolateCp 1).cps.getD 1 ControlPoint2.defaultCp).rightPos
      ≠ (((curveInterpCex.cps.getD 0 ControlPoint2.defaultCp).rightPos
          + (curveInterpCex.cps.getD 1 ControlPoint2.defaultCp).leftPos).divScalar 2
        + ((curveInterpCex.cps.getD 1 ControlPoint2.defaultCp).leftPos
          + (curveInterpCex.cps.getD 1 ControlPoint2.defaultCp).middlePos).divScalar 2).divScalar 2 := by
  have hshape := interpolateCp_valid_eq [cpInterpA, cpInterpB] [] 1 (Nat.le_refl 1)
    (by simp)
  rw [Nat.cast_one] at hshape
  have hsin : Real.sin (degToRad (cpInterpB.rightC.angle)) = 0 := by
    show Real.sin (degToRad ((circSetFromVector2 ((⟨12, 0⟩ : V2) - ⟨10, 0⟩)).angle)) = 0
    simp only [sub_mk2, circSetFromVector2, degToRad_radToDeg, atan2JS]
    rw [Real.sin_add_pi, Complex.sin_arg]
    norm_num
  have hval : ((curveInterpCex.interpolateCp 1).cps.getD 1
      ControlPoint2.defaultCp).rightPos.y = 3 / 4 := by
    show ((Curve2Edit.interpolateCp ⟨[cpInterpA, cpInterpB], []⟩ 1).cps.getD 1
      ControlPoint2.defaultCp).rightPos.y = 3 / 4
    rw [hshape]
    rw [getD_set_ne _ _ _ 2 1 (by omega)
        (by rw [List.length_set, List.length_set, List.length_insertIdx 1 _ (by simp)]; simp),
      getD_set_self _ _ _ 1
        (by rw [List.length_set, List.length_insertIdx 1 _ (by simp)]; simp)]
    rw [updateFromRightPos_rightPos]
    rw [updateFromLeftPos_tf _ rfl rfl]
    simp only [List.getD_cons_zero, List.getD_cons_succ]
    rw [V2.add_y, CircR.yval]
    rw [hsin, mul_zero, add_zero]
    simp only [cpInterpA, cpInterpB, ControlPoint2.init, V2.divScalar_y, V2.add_y]
    norm_num
  have hrhs : ((((curveInterpCex.cps.getD 0 ControlPoint2.defaultCp).rightPos
          + (curveInterpCex.cps.getD 1 ControlPoint2.defaultCp).leftPos).divScalar 2
        + ((curveInterpCex.cps.getD 1 ControlPoint2.defaultCp).leftPos
          + (curveInterpCex.cps.getD 1 ControlPoint2.defaultCp).middlePos).divScalar 2).divScalar 2).y
      = 1 / 2 := by
    show (((([cpInterpA, cpInterpB].getD 0 ControlPoint2.defaultCp).rightPos
          + ([cpInterpA, cpInterpB].getD 1 ControlPoint2.defaultCp).leftPos).divScalar 2
        + (([cpInterpA, cpInterpB].getD 1 ControlPoint2.defaultCp).leftPos
          + ([cpInterpA, cpInterpB].getD 1 ControlPoint2.defaultCp).middlePos).divScalar 2).divScalar 2).y = 1 / 2
    simp only [List.getD_cons_zero, List.getD_cons_succ]
    simp only [cpInterpA, cpInterpB, ControlPoint2.init, V2.divScalar_y, V2.add_y]
    norm_num
  intro heq
  have hy := congrArg V2.y heq
  rw [hval, hrhs] at hy
  norm_num at hy

/-- Witness for C6 at a concrete 2-point curve with both sync flags set. -/
theorem c6_interpolate_subdivision_witness :
    (1 ≤ 1 ∧ 1 + 1 ≤ curveInterpW.cps.length
      ∧ (curveInterpW.cps.getD 1 ControlPoint2.defaultCp).isSyncRadius
          = (curveInterpW.cps.getD 1 ControlPoint2.defaultCp).isSyncAngle)
    ∧ ((curveInterpW.interpolateCp ((1 : ℕ) : ℚ)).cps.length = curveInterpW.cps.length + 1
    ∧ ((curveInterpW.interpolateCp ((1 : ℕ) : ℚ)).cps.getD (1 - 1) ControlPoint2.defaultCp).rightPos
        = ((curveInterpW.cps.getD (1 - 1) ControlPoint2.defaultCp).middlePos
            + (curveInterpW.cps.getD (1 - 1) ControlPoint2.defaultCp).rightPos).divScalar 2
    ∧ ((curveInterpW.interpolateCp ((1 : ℕ) : ℚ)).cps.getD (1 + 1) ControlPoint2.defaultCp).leftPos
        = ((curveInterpW.cps.getD 1 ControlPoint2.defaultCp).leftPos
            + (curveInterpW.cps.getD 1 ControlPoint2.defaultCp).middlePos).divScalar 2
    ∧ ((curveInterpW.interpolateCp ((1 : ℕ) : ℚ)).cps.getD 1 ControlPoint2.defaultCp).leftPos
        = (((curveInterpW.cps.getD (1 - 1) ControlPoint2.defaultCp).middlePos
            + (curveInterpW.cps.getD (1 - 1) ControlPoint2.defaultCp).rightPos).divScalar 2
          + ((curveInterpW.cps.getD (1 - 1) ControlPoint2.defaultCp).rightPos
            + (curveInterpW.cps.getD 1 ControlPoint2.defaultCp).leftPos).divScalar 2).divScalar 2
    ∧ ((curveInterpW.interpolateCp ((1 : ℕ) : ℚ)).cps.getD 1 ControlPoint2.defaultCp).rightPos
        = (((curveInterpW.cps.getD (1 - 1) ControlPoint2.defaultCp).rightPos
            + (curveInterpW.cps.getD 1 ControlPoint2.defaultCp).leftPos).divScalar 2
          + ((curveInterpW.cps.getD 1 ControlPoint2.defaultCp).leftPos
            + (curveInterpW.cps.getD 1 ControlPoint2.defaultCp).middlePos).divScalar 2).divScalar 2
    ∧ ((curveInterpW.interpolateCp ((1 : ℕ) : ℚ)).cps.getD 1 ControlPoint2.defaultCp).middlePos
        = ((((curveInterpW.cps.getD (1 - 1) ControlPoint2.defaultCp).middlePos
            + (curveInterpW.cps.getD (1 - 1) ControlPoint2.defaultCp).rightPos).divScalar 2
          + ((curveInterpW.cps.getD (1 - 1) ControlPoint2.defaultCp).rightPos
            + (curveInterpW.cps.getD 1 ControlPoint2.defaultCp).leftPos).divScalar 2).divScalar 2
          + (((curveInterpW.cps.getD (1 - 1) ControlPoint2.defaultCp).rightPos
            + (curveInterpW.cps.getD 1 ControlPoint2.defaultCp).leftPos).divScalar 2
          + ((curveInterpW.cps.getD 1 ControlPoint2.defaultCp).leftPos
            + (curveInterpW.cps.getD 1 ControlPoint2.defaultCp).middlePos).divScalar 2).divScalar 2).divScalar 2) :=
  ⟨⟨Nat.le_refl 1, Nat.le_refl 2, rfl⟩,
   c6_interpolate_subdivision curveInterpW 1 (Nat.le_refl 1) (Nat.le_refl 2) rfl⟩

/-! ## C3: finiteness of the first pass, and the unguarded post-pass blend -/

theorem o2rotateAround_fin (p : O2) (ang : ℝ) (h : ∃ a b, p = ⟨some a, some b⟩) :
    ∃ a b, o2rotateAround p centerO (some ang) = ⟨some a, some b⟩ := by
  obtain ⟨a, b, rfl⟩ := h
  exact ⟨_, _, rfl⟩

theorem applyXCurvatureToCP_fin (xc : ℝ) (p : O2) (h : ∃ a b, p = ⟨some a, some b⟩) :
    ∃ a b, applyXCurvatureToCP xc p = ⟨some a, some b⟩ := by
  obtain ⟨a, b, rfl⟩ := h
  rw [applyXCurvatureToCP]
  split
  · exact ⟨a, b, rfl⟩
  · rename_i hxc
    simp only [odiv, if_neg hxc]
    exact ⟨_, _, rfl⟩

theorem applyYCurvatureToCP_fin (yc : ℝ) (p : O2) (h : ∃ a b, p = ⟨some a, some b⟩) :
    ∃ a b, applyYCurvatureToCP yc p = ⟨some a, some b⟩ := by
  obtain ⟨a, b, rfl⟩ := h
  rw [applyYCurvatureToCP]
  split
  · exact ⟨a, b, rfl⟩
  · rename_i hyc
    simp only [odiv, if_neg hyc]
    exact ⟨_, _, rfl⟩

theorem applyXCurvatureToCB_fin (xc : ℝ) (cpy : ℝ) (cb : O2)
    (h : ∃ a b, cb = ⟨some a, some b⟩) :
    ∃ a b, applyXCurvatureToCB xc (some cpy) cb = ⟨some a, some b⟩ := by
  obtain ⟨a, b, rfl⟩ := h
  rw [applyXCurvatureToCB]
  split
  · exact ⟨a, b, rfl⟩
  · exact ⟨_, _, rfl⟩

theorem applyYCurvatureToCB_fin (yc : ℝ) (cpx : ℝ) (cb : O2)
    (h : ∃ a b, cb = ⟨some a, some b⟩) :
    ∃ a b, applyYCurvatureToCB yc (some cpx) cb = ⟨some a, some b⟩ := by
  obtain ⟨a, b, rfl⟩ := h
  rw [applyYCurvatureToCB]
  split
  · exact ⟨a, b, rfl⟩
  · exact ⟨_, _, rfl⟩

theorem crossPointScaled_fin (env : TubeEnv) (i j : ℕ) :
    ∃ a b, crossPointScaled env i j = ⟨some a, some b⟩ :=
  ⟨_, _, rfl⟩

theorem crossPointAfter_fin (env : TubeEnv) (i j : ℕ) :
    ∃ a b, crossPointAfter env i j = ⟨some a, some b⟩ := by
  rw [crossPointAfter]
  apply o2rotateAround_fin
  cases env.curvatureOrder
  · exact applyYCurvatureToCP_fin _ _ (applyXCurvatureToCP_fin _ _ (crossPointScaled_fin env i j))
  · exact applyXCurvatureToCP_fin _ _ (applyYCurvatureToCP_fin _ _ (crossPointScaled_fin env i j))

theorem crossBinormalAfter_fin (env : TubeEnv) (i j : ℕ) :
    ∃ a b, crossBinormalAfter env i j = ⟨some a, some b⟩ := by
  rw [crossBinormalAfter]
  obtain ⟨a, b, hab⟩ := crossPointScaled_fin env i j
  rw [hab]
  apply o2rotateAround_fin
  cases env.curvatureOrder
  · exact applyYCurvatureToCB_fin _ _ _ (applyXCurvatureToCB_fin _ _ _ ⟨_, _, rfl⟩)
  · exact applyXCurvatureToCB_fin _ _ _ (applyYCurvatureToCB_fin _ _ _ ⟨_, _, rfl⟩)

theorem omul_some (x y : ℝ) : omul (some x) (some y) = some (x * y) := rfl

theorem oadd_some (x y : ℝ) : oadd (some x) (some y) = some (x + y) := rfl

theorem osub_some (x y : ℝ) : osub (some x) (some y) = some (x - y) := rfl

theorem osqrt_some_of_nonneg (t : ℝ) (h : ¬t < 0) :
    osqrt (some t) = some (Real.sqrt t) := by
  simp [osqrt, h]

theorem lengthOrOne_zero : lengthOrOne (some 0) = some 1 := by
  simp [lengthOrOne]

theorem lengthOrOne_ne (l : ℝ) (h : l ≠ 0) : lengthOrOne (some l) = some l := by
  simp [lengthOrOne, h]

theorem odiv_some_ne (x k : ℝ) (h : k ≠ 0) : odiv (some x) (some k) = some (x / k) := by
  simp [odiv, h]

theorem o3normalize_fin (v : O3) (h : ∃ a b c, v = ⟨some a, some b, some c⟩) :
    ∃ a b c, o3normalize v = ⟨some a, some b, some c⟩ := by
  obtain ⟨a, b, c, rfl⟩ := h
  have hnonneg : ¬(a * a + b * b + c * c < 0) := by nlinarith
  simp only [o3normalize, omul_some, oadd_some, osqrt_some_of_nonneg _ hnonneg]
  by_cases hz : Real.sqrt (a * a + b * b + c * c) = 0
  · rw [hz, lengthOrOne_zero, odiv_some_ne _ _ one_ne_zero, odiv_some_ne _ _ one_ne_zero,
      odiv_some_ne _ _ one_ne_zero]
    exact ⟨_, _, _, rfl⟩
  · rw [lengthOrOne_ne _ hz, odiv_some_ne _ _ hz, odiv_some_ne _ _ hz, odiv_some_ne _ _ hz]
    exact ⟨_, _, _, rfl⟩

theorem baseNormal_fin (env : TubeEnv) (i j : ℕ) :
    ∃ a b c, baseNormal env i j = ⟨some a, some b, some c⟩ := by
  rw [baseNormal]
  obtain ⟨a, b, hab⟩ := crossBinormalAfter_fin env i j
  rw [hab]
  exact o3normalize_fin _ ⟨_, _, _, rfl⟩

theorem tubeVertex_fin (env : TubeEnv) (i j : ℕ) :
    ∃ a b c, tubeVertex env i j = ⟨some a, some b, some c⟩ := by
  rw [tubeVertex]
  obtain ⟨a, b, hab⟩ := crossPointAfter_fin env i j
  rw [hab]
  exact ⟨_, _, _, rfl⟩

theorem omul_none_left (b : OR) : omul none b = none := rfl

theorem oadd_none_right (a : OR) : oadd a none = none := by
  cases a <;> rfl

theorem o3normalize_none : o3normalize ⟨none, none, none⟩ = ⟨none, none, none⟩ := rfl

/-- C3 amended.  The divisions of the first pass are guarded: the
`1/curvature` bends short-circuit to the identity at curvature 0, and for
every environment and every vertex the first-pass position and normal are
finite (`some`) values — `normalize` guards its zero/NaN length with the
`|| 1` fallback and the guarded curvature bends preserve finiteness.  (The
`z / xy` tangent-blend division of the normal post-pass is, however, not
guarded; see the counterexample, which drives a non-finite value into the
final normal buffer from a zero-radius cross-section.) -/
theorem c3_first_pass_finite (env : TubeEnv) (i j : ℕ) :
    (∀ p : O2, applyXCurvatureToCP 0 p = p)
    ∧ (∀ p : O2, applyYCurvatureToCP 0 p = p)
    ∧ (∃ a b c, tubeVertex env i j = ⟨some a, some b, some c⟩)
    ∧ (∃ a b c, baseNormal env i j = ⟨some a, some b, some c⟩) := by
  refine ⟨?_, ?_, tubeVertex_fin env i j, baseNormal_fin env i j⟩
  · intro p
    rw [applyXCurvatureToCP, if_pos rfl]
  · intro p
    rw [applyYCurvatureToCP, if_pos rfl]

theorem crossPointAfter_envZeroCross (k j : ℕ) :
    crossPointAfter envZeroCross k j = ⟨some 0, some 0⟩ := by
  simp [crossPointAfter, crossPointScaled, ringModulation, envZeroCross, envSample,
    V2.toO, omul, oadd, osub, ocos, osin, Option.map₂, applyXCurvatureToCP,
    applyYCurvatureToCP, o2rotateAround, centerO, degToRad]

theorem postXYZ_envZeroCross : postXYZ envZeroCross 0 0 = (some 0, some 0) := by
  have hL : axisLengthSegment envZeroCross = some 4 := by
    simp [axisLengthSegment, envZeroCross, envSample, odiv]
  have h0 : osqrt (some (0 : ℝ)) = some 0 := by
    rw [osqrt_some_of_nonneg 0 (by norm_num), Real.sqrt_zero]
  simp [postXYZ, postCrossUpper, crossPointAfter_envZeroCross, hL, O2.withZ,
    o3sub, o3cross, omul_some, osub_some, oadd_some, h0]

/-- C3 counterexample.  For the degenerate input with a zero-radius
cross-section (every cross-section sample point at the origin; straight
axis, identity modulation, `axisSegments = 1`, `crossSegments = 3`), the
post-pass computes `xy = 0` and the unguarded division `z / xy` is `0 / 0`
(`NaN`), which propagates into the final normal buffer: the buffer contains
a non-finite value. -/
theorem c3_nan_in_normals_counterexample : none ∈ tubeNormalsBuffer envZeroCross := by
  have hw : odiv (some (0 : ℝ)) (some 0) = none := by
    simp [odiv]
  have hpost : postNormal envZeroCross 0 0 = ⟨none, none, none⟩ := by
    obtain ⟨a, b, c, hbn⟩ := baseNormal_fin envZeroCross 0 0
    simp only [postNormal, postXYZ_envZeroCross, hbn, hw, omul_none_left,
      oadd_none_right, o3normalize_none]
  rw [tubeNormalsBuffer]
  refine List.mem_flatMap.mpr ⟨0, ?_, List.mem_flatMap.mpr ⟨0, ?_, ?_⟩⟩
  · simp [envZeroCross, envSample]
  · simp [envZeroCross, envSample]
  · rw [hpost]
    simp
